import Mathlib

/-!
Shallow embedding of the offline-first consistency core of the
hobby-tracker repository: the transactional data-access layer
(BaseService and the entity services with safe delete and cascading
delete), the synchronization tracker (SyncService), the goal completion
engine (GoalService.calculateCompletion and its cache), the event bus,
and the broadcast-channel adapter.

Conventions of the embedding:
  - TypeScript `number` is modelled as `ℚ` where fractional values matter
    (progress values, goal targets) and as `ℕ` for millisecond timestamps.
  - A TypeScript optional field (`x?: T`) is modelled as `Option T`;
    `none` stands for an absent key (which Dexie's `update` leaves
    untouched when it appears in a spread) and for `undefined`.
  - The Dexie store is a record of four lists of typed rows; primary-key
    lookup is a scan by `id`, index queries (`where(...).equals(...)`)
    are list filters.
  - Asynchronous methods are modelled as pure state-passing functions;
    fallible storage steps run in a small state monad `Casc` with an
    injectable failure point, and `db.transaction` restores the store
    (but not the already-published events) when its body fails.
  - Events published on the event bus and messages broadcast to other
    tabs are accumulated in an explicit trace.
-/

/-- Sync status enumeration (types/sync/SyncStatus.ts `SyncStatus`). -/
inductive SyncStatus where
  | synced
  | pending
  | syncing
  | conflict
  | failed
  | offline
deriving DecidableEq, Repr

/-- Sync operation type enumeration (types/sync/SyncStatus.ts `SyncOperationType`). -/
inductive SyncOperationType where
  | create
  | update
  | delete
  | none
deriving DecidableEq, Repr

/-- The four logical tables of the store (db/schema.ts `SCHEMA`). -/
inductive TableName where
  | categories
  | hobbies
  | goals
  | progress
deriving DecidableEq, Repr

/-- The string name of a table, as passed to `db.table(...)`. -/
def TableName.str : TableName → String
  | .categories => "categories"
  | .hobbies => "hobbies"
  | .goals => "goals"
  | .progress => "progress"

/-- The sync-metadata fields stored on every row (types/sync/SyncStatus.ts
`SyncableEntity`, the database-resident subset).  Every field is optional:
a fresh row has none of them. -/
structure SyncFields where
  syncStatus : Option SyncStatus := Option.none
  lastSyncedAt : Option ℕ := Option.none
  localUpdatedAt : Option ℕ := Option.none
  serverUpdatedAt : Option ℕ := Option.none
  pendingOperation : Option SyncOperationType := Option.none
  conflictData : Option String := Option.none
  errorMessage : Option String := Option.none
  retryCount : Option ℕ := Option.none
  lastAttemptAt : Option ℕ := Option.none
deriving DecidableEq, Repr

/-- Goal type discriminant (types/Goal.ts `GoalType`). -/
inductive GoalType where
  | count
  | quantity
  | composite
deriving DecidableEq, Repr

/-- Goal period discriminant (types/Goal.ts `GoalPeriod`). -/
inductive GoalPeriod where
  | daily
  | weekly
  | monthly
  | custom
deriving DecidableEq, Repr

/-- Custom period configuration (types/Goal.ts `CustomPeriodConfig`). -/
structure CustomPeriodConfig where
  frequency : ℚ
  unit : String
deriving DecidableEq, Repr

/-- A category row (types/Category.ts `Category` plus the sync fields). -/
structure Category where
  id : String
  name : String
  color : String
  icon : String
  createdAt : ℕ
  updatedAt : ℕ
  sync : SyncFields := {}
deriving DecidableEq, Repr

/-- A hobby row (types/Hobby.ts `Hobby` plus the sync fields). -/
structure Hobby where
  id : String
  categoryId : String
  name : String
  description : Option String := Option.none
  createdAt : ℕ
  updatedAt : ℕ
  sync : SyncFields := {}
deriving DecidableEq, Repr

/-- A goal row (types/Goal.ts `Goal` plus the sync fields). -/
structure Goal where
  id : String
  hobbyId : String
  type : GoalType
  period : GoalPeriod
  targetValue : ℚ
  targetUnit : Option String := Option.none
  customPeriod : Option CustomPeriodConfig := Option.none
  timeRequirement : Option ℚ := Option.none
  createdAt : ℕ
  updatedAt : ℕ
  sync : SyncFields := {}
deriving DecidableEq, Repr

/-- A progress row (types/Progress.ts `Progress` plus the sync fields). -/
structure Progress where
  id : String
  goalId : String
  recordedAt : ℕ
  value : ℚ
  duration : Option ℚ := Option.none
  notes : Option String := Option.none
  createdAt : ℕ
  updatedAt : ℕ
  sync : SyncFields := {}
deriving DecidableEq, Repr

/-- The persistent store: the four entity tables of `HobbyTrackerDatabase`
(db/db.ts). -/
structure Store where
  categories : List Category
  hobbies : List Hobby
  goals : List Goal
  progress : List Progress
deriving DecidableEq, Repr

/-- Payload of a global sync status event
(SyncService.ts `SyncGlobalStatusEventData`). -/
structure SyncGlobalStatusEventData where
  pendingItemsCount : ℕ
  failedItemsCount : ℕ
  conflictItemsCount : ℕ
  timestamp : ℕ
deriving DecidableEq, Repr

/-- Payload of an entity sync status change event
(types/sync/SyncStatus.ts `SyncStatusChangeEvent`).  The `metadata` field
carries the written sync-field bundle. -/
structure SyncStatusChangeEvent where
  entityType : String
  entityId : String
  oldStatus : Option SyncStatus
  newStatus : SyncStatus
  timestamp : ℕ
  metadata : Option SyncFields
deriving DecidableEq, Repr

/-- Data attached to a published or broadcast event, covering the payload
shapes the modelled code actually sends. -/
inductive EvData where
  | unit
  | str (s : String)
  | withGoalId (goalId : String)
  | withHobbyId (hobbyId : String)
  | statusChange (e : SyncStatusChangeEvent)
  | globalCounts (g : SyncGlobalStatusEventData)
  | dbChanged (specificEvent : String)
deriving DecidableEq, Repr

/-- One observable effect of the data layer: an event published on the
local event bus, a message posted on the broadcast channel, a sync-field
write (`db.table(t).update(id, {...sync fields...})`), or a Dexie delete
(`where(ix).equals(v).delete()` or `table.delete(id)`). -/
inductive TraceEv where
  | pub (name : String) (d : EvData)
  | bcast (name : String) (d : EvData)
  | syncWrite (tbl : TableName) (id : String) (sf : SyncFields)
  | delWhere (tbl : TableName) (ix : String) (v : String)
  | delKey (tbl : TableName) (id : String)
deriving DecidableEq, Repr

/-- The sync fields of the rows of a table. -/
def Store.syncsOf (s : Store) : TableName → List SyncFields
  | .categories => s.categories.map Category.sync
  | .hobbies => s.hobbies.map Hobby.sync
  | .goals => s.goals.map Goal.sync
  | .progress => s.progress.map Progress.sync

/-- `db.table(tbl).get(id)` restricted to the sync fields: the sync
metadata of the row with the given primary key, when it exists. -/
def Store.findSync (s : Store) (tbl : TableName) (id : String) : Option SyncFields :=
  match tbl with
  | .categories => (s.categories.find? (fun r => r.id = id)).map Category.sync
  | .hobbies => (s.hobbies.find? (fun r => r.id = id)).map Hobby.sync
  | .goals => (s.goals.find? (fun r => r.id = id)).map Goal.sync
  | .progress => (s.progress.find? (fun r => r.id = id)).map Progress.sync

/-- Write a full bundle of sync fields onto the row with the given id
(the effect of `updateEntitySyncStatus`'s `db.table(table).update(id, ...)`
call, which lists every sync field in its update spec). -/
def Store.writeSync (s : Store) (tbl : TableName) (id : String) (sf : SyncFields) : Store :=
  match tbl with
  | .categories =>
      { s with categories := s.categories.map (fun r => if r.id = id then { r with sync := sf } else r) }
  | .hobbies =>
      { s with hobbies := s.hobbies.map (fun r => if r.id = id then { r with sync := sf } else r) }
  | .goals =>
      { s with goals := s.goals.map (fun r => if r.id = id then { r with sync := sf } else r) }
  | .progress =>
      { s with progress := s.progress.map (fun r => if r.id = id then { r with sync := sf } else r) }

namespace SyncService

/-- Event name `SyncEvent.ENTITY_SYNC_STATUS_CHANGED`. -/
def ENTITY_SYNC_STATUS_CHANGED : String := "sync:entity:status:changed"

/-- Event name `SyncEvent.GLOBAL_SYNC_STATUS_CHANGED`. -/
def GLOBAL_SYNC_STATUS_CHANGED : String := "sync:global:status:changed"

/-- The optional-metadata argument of `updateEntitySyncStatus`
(`Partial<SyncMetadata>`); callers in this codebase never put `status`
in the patch, so only the eight metadata fields are modelled. -/
structure SyncMetadataPatch where
  lastSyncedAt : Option ℕ := Option.none
  localUpdatedAt : Option ℕ := Option.none
  serverUpdatedAt : Option ℕ := Option.none
  pendingOperation : Option SyncOperationType := Option.none
  conflictData : Option String := Option.none
  errorMessage : Option String := Option.none
  retryCount : Option ℕ := Option.none
  lastAttemptAt : Option ℕ := Option.none
deriving DecidableEq, Repr

/-- The JavaScript expression `metadata.lastAttemptAt || Date.now()`:
a missing or zero (falsy) timestamp falls back to the current time. -/
def jsOrNow (o : Option ℕ) (now : ℕ) : ℕ :=
  match o with
  | Option.none => now
  | Option.some t => if t = 0 then now else t

/-- The sync-field bundle written by `updateEntitySyncStatus`: status from
the argument, metadata fields from the patch, `lastAttemptAt` defaulted to
now, and `lastSyncedAt` stamped to now when the new status is `synced`. -/
def mkSyncFields (status : SyncStatus) (meta : SyncMetadataPatch) (now : ℕ) : SyncFields :=
  { syncStatus := Option.some status
    lastSyncedAt := if status = SyncStatus.synced then Option.some now else meta.lastSyncedAt
    localUpdatedAt := meta.localUpdatedAt
    serverUpdatedAt := meta.serverUpdatedAt
    pendingOperation := meta.pendingOperation
    conflictData := meta.conflictData
    errorMessage := meta.errorMessage
    retryCount := meta.retryCount
    lastAttemptAt := Option.some (jsOrNow meta.lastAttemptAt now) }

/-- `getSyncStatusCounts(table)[status]`: the number of rows of the table
whose `syncStatus` index equals the given status (rows with the key absent
are not indexed and are not counted). -/
def countStatus (s : Store) (tbl : TableName) (st : SyncStatus) : ℕ :=
  (s.syncsOf tbl).countP (fun sf => sf.syncStatus = Option.some st)

/-- The total over the four tables used by `updateGlobalSyncCounts`. -/
def totalStatus (s : Store) (st : SyncStatus) : ℕ :=
  countStatus s .categories st + countStatus s .hobbies st +
    countStatus s .goals st + countStatus s .progress st

/-- `updateGlobalSyncCounts()`: recompute the pending/failed/conflict
totals across the four tables and publish them as one
`GLOBAL_SYNC_STATUS_CHANGED` event carrying the totals and a timestamp. -/
def updateGlobalSyncCounts (s : Store) (now : ℕ) : TraceEv :=
  TraceEv.pub GLOBAL_SYNC_STATUS_CHANGED (EvData.globalCounts
    { pendingItemsCount := totalStatus s SyncStatus.pending
      failedItemsCount := totalStatus s SyncStatus.failed
      conflictItemsCount := totalStatus s SyncStatus.conflict
      timestamp := now })

/-- `notifySyncStatusChanged(table, id, oldStatus, newStatus, metadata)`:
publish the entity status-change event and its table-suffixed variant. -/
def notifySyncStatusChanged (tbl : TableName) (id : String)
    (oldStatus : Option SyncStatus) (newStatus : SyncStatus)
    (metadata : Option SyncFields) (now : ℕ) : List TraceEv :=
  let e : SyncStatusChangeEvent :=
    { entityType := tbl.str, entityId := id, oldStatus := oldStatus
      newStatus := newStatus, timestamp := now, metadata := metadata }
  [TraceEv.pub ENTITY_SYNC_STATUS_CHANGED (EvData.statusChange e),
   TraceEv.pub (ENTITY_SYNC_STATUS_CHANGED ++ ":" ++ tbl.str) (EvData.statusChange e)]

/-- `SyncService.updateEntitySyncStatus(table, id, status, metadata)`:
silently return when the row does not exist (the code logs a warning and
returns); otherwise write the sync fields, publish the scoped
status-change event plus the table-suffixed variant, and republish the
recomputed global counts. -/
def updateEntitySyncStatus (tbl : TableName) (id : String) (status : SyncStatus)
    (meta : SyncMetadataPatch) (now : ℕ) (s : Store) : Store × List TraceEv :=
  match s.findSync tbl id with
  | Option.none => (s, [])
  | Option.some oldSync =>
      let sf := mkSyncFields status meta now
      let s' := s.writeSync tbl id sf
      (s', TraceEv.syncWrite tbl id sf ::
             (notifySyncStatusChanged tbl id oldSync.syncStatus status (Option.some sf) now
               ++ [updateGlobalSyncCounts s' now]))

/-- `SyncService.markForSync(table, id, operation)`. -/
def markForSync (tbl : TableName) (id : String) (op : SyncOperationType)
    (now : ℕ) (s : Store) : Store × List TraceEv :=
  updateEntitySyncStatus tbl id SyncStatus.pending
    { localUpdatedAt := Option.some now, pendingOperation := Option.some op } now s

/-- Conflict resolution choice of `resolveConflict`. -/
inductive Resolution where
  | localWins
  | serverWins
deriving DecidableEq, Repr

/-- The row update performed by the server-wins branch of
`resolveConflict` on the categories table:
`db.table(table).update(id, {...serverData, syncStatus: SYNCED,
lastSyncedAt: now, serverUpdatedAt: now, conflictData: null,
errorMessage: null})`.  Spread keys present in `serverData` overwrite the
row's fields; sync keys absent from `serverData` (modelled `none`) leave
the old row's values in place; the five explicit keys always win. -/
def applyServerWins (r serverData : Category) (now : ℕ) : Category :=
  { r with
    name := serverData.name
    color := serverData.color
    icon := serverData.icon
    createdAt := serverData.createdAt
    updatedAt := serverData.updatedAt
    sync :=
      { syncStatus := Option.some SyncStatus.synced
        lastSyncedAt := Option.some now
        serverUpdatedAt := Option.some now
        conflictData := Option.none
        errorMessage := Option.none
        localUpdatedAt := serverData.sync.localUpdatedAt <|> r.sync.localUpdatedAt
        pendingOperation := serverData.sync.pendingOperation <|> r.sync.pendingOperation
        retryCount := serverData.sync.retryCount <|> r.sync.retryCount
        lastAttemptAt := serverData.sync.lastAttemptAt <|> r.sync.lastAttemptAt } }

/-- `SyncService.resolveConflict(table, id, localData, serverData,
resolution)`, specialized to the categories table (the source is generic
over the four tables; the body is table-independent apart from the row
type).  `localData` is accepted and unused, exactly as in the source:
the local-wins branch just re-marks the stored row for sync. -/
def resolveConflict (id : String) (_localData serverData : Category)
    (resolution : Resolution) (now : ℕ) (s : Store) : Store × List TraceEv :=
  match resolution with
  | .localWins =>
      let res := markForSync .categories id SyncOperationType.update now s
      (res.1, res.2 ++ [updateGlobalSyncCounts res.1 now])
  | .serverWins =>
      let f := fun (r : Category) => if r.id = id then applyServerWins r serverData now else r
      let s' : Store := { s with categories := s.categories.map f }
      let evs := notifySyncStatusChanged .categories id
        (Option.some SyncStatus.conflict) SyncStatus.synced Option.none now
      (s', evs ++ [updateGlobalSyncCounts s' now])

end SyncService

namespace BaseService

/-- `BaseService.add(item)` of the sync-aware base service
(services/BaseService.ts), instantiated at the hobbies table (the service
is generic over the entity type; `HobbyService` constructs it with
`super(db.hobbies, "hobbies")`).  The item is stamped
`{...item, syncStatus: PENDING, localUpdatedAt: now, pendingOperation:
CREATE}`, persisted with `table.add` (which fails on a duplicated primary
key), and then `syncService.markForSync(tableName, id, CREATE)` runs.
`executeDbOperation` wraps a failure into a descriptive error. -/
def add (item : Hobby) (now : ℕ) (s : Store) :
    Except String (String × Store × List TraceEv) :=
  if s.hobbies.any (fun r => r.id = item.id) then
    Except.error "新增記錄失敗: ConstraintError"
  else
    let itemWithSync : Hobby :=
      { item with sync :=
          { item.sync with
            syncStatus := Option.some SyncStatus.pending
            localUpdatedAt := Option.some now
            pendingOperation := Option.some SyncOperationType.create } }
    let s1 : Store := { s with hobbies := s.hobbies ++ [itemWithSync] }
    let res := SyncService.markForSync .hobbies item.id SyncOperationType.create now s1
    Except.ok (item.id, res.1, res.2)

end BaseService

/-- The hobby row as stamped by `BaseService.add` before `table.add`. -/
def addStamped (item : Hobby) (now : ℕ) : Hobby :=
  { item with sync :=
      { item.sync with
        syncStatus := Option.some SyncStatus.pending
        localUpdatedAt := Option.some now
        pendingOperation := Option.some SyncOperationType.create } }

/-- The store after `table.add` inside `BaseService.add`. -/
def addS1 (item : Hobby) (now : ℕ) (s : Store) : Store :=
  { s with hobbies := s.hobbies ++ [addStamped item now] }

/-- The sync-field bundle written by the `markForSync` call of
`BaseService.add`. -/
def addSf (now : ℕ) : SyncFields :=
  SyncService.mkSyncFields SyncStatus.pending
    { localUpdatedAt := Option.some now
      pendingOperation := Option.some SyncOperationType.create } now

/-- Concrete fixture: a category row. -/
def cat1 : Category :=
  { id := "c1", name := "運動", color := "#FF0000", icon := "trophy",
    createdAt := 0, updatedAt := 0 }

/-- Concrete fixture: a hobby row under `cat1`. -/
def hobby1 : Hobby :=
  { id := "h1", categoryId := "c1", name := "跑步", createdAt := 0, updatedAt := 0 }

/-- Concrete fixture: a count goal under `hobby1`. -/
def goal1 : Goal :=
  { id := "g1", hobbyId := "h1", type := GoalType.count, period := GoalPeriod.daily,
    targetValue := 5, createdAt := 0, updatedAt := 0 }

/-- Concrete fixture: a progress record under `goal1`. -/
def prog1 : Progress :=
  { id := "p1", goalId := "g1", recordedAt := 0, value := 1,
    createdAt := 0, updatedAt := 0 }

/-- Concrete fixture: a store with one row in each table, forming one
containment chain `c1 → h1 → g1 → p1`. -/
def store1 : Store :=
  { categories := [cat1], hobbies := [hobby1], goals := [goal1], progress := [prog1] }

/-- Concrete fixture: a fresh hobby row not present in `store1`. -/
def hobby2 : Hobby :=
  { id := "h2", categoryId := "c1", name := "游泳", createdAt := 3, updatedAt := 3 }

/-- Concrete fixture: a server-side snapshot of category `c1`. -/
def catServer : Category :=
  { id := "c1", name := "旅行", color := "#00FF00", icon := "book",
    createdAt := 1, updatedAt := 2 }

namespace EventBus

/-- A subscriber callback of the event bus (events/eventBus.ts
`EventCallback`), abstracted by an identity and by whether invoking it
throws. -/
structure EventCallback where
  cid : ℕ
  fails : Bool
deriving DecidableEq, Repr

/-- The subscription registry (the `events` map of the `EventBus` class):
event name to callbacks in subscription order; a name that was never
subscribed behaves as the empty list, matching the `has(event)` guards. -/
def Registry := String → List EventCallback

/-- The registry of a freshly constructed event bus. -/
def emptyRegistry : Registry := fun _ => []

/-- `EventBus.subscribe(event, callback)`: create the entry when absent
and push the callback at the end of the event's callback array. -/
def subscribe (event : String) (c : EventCallback) (r : Registry) : Registry :=
  fun e => if e = event then r event ++ [c] else r e

/-- The unsubscribe closure returned by `subscribe`: at invocation time,
`indexOf` the callback in the event's current array and `splice` it out,
removing exactly the first occurrence when present. -/
def unsubscribe (event : String) (c : EventCallback) (r : Registry) : Registry :=
  fun e => if e = event then (r event).erase c else r e

/-- An observable step of `publish`'s dispatch loop: a callback invocation
with the published data, or the logging of a caught subscriber exception. -/
inductive BusEv where
  | invoked (cid : ℕ) (data : String)
  | errLogged (cid : ℕ)
deriving DecidableEq, Repr

/-- The `forEach` dispatch loop of `publish`: invoke each callback in
order inside `try`/`catch`; a throwing callback is logged and the loop
continues. -/
def runCallbacks (cs : List EventCallback) (data : String) : List BusEv :=
  match cs with
  | [] => []
  | c :: rest =>
      (BusEv.invoked c.cid data :: if c.fails then [BusEv.errLogged c.cid] else [])
        ++ runCallbacks rest data

/-- `EventBus.publish(event, data)`: dispatch to every subscriber of the
event; the function is total — a subscriber's exception never reaches the
publisher — and its value is the observable invocation/log sequence. -/
def publish (event : String) (data : String) (r : Registry) : List BusEv :=
  runCallbacks (r event) data

/-- Whether a dispatch step is a callback invocation. -/
def BusEv.isInvoked : BusEv → Bool
  | .invoked _ _ => true
  | .errLogged _ => false

end EventBus

/-- Concrete fixture: a registry with a throwing and a normal callback
subscribed to the event `evt`. -/
def busReg1 : EventBus.Registry :=
  fun e => if e = "evt" then [⟨1, true⟩, ⟨2, false⟩] else []

namespace BroadcastService

/-- The keys of the compiled `DataEvent` string-enum object
(events/dataEvents.ts).  A TypeScript string enum compiles to an object
mapping each member name to its string value, with no reverse mapping,
so the `in` operator tests membership among these member names. -/
def dataEventKeys : List String :=
  ["CATEGORY_CHANGED", "CATEGORY_ADDED", "CATEGORY_UPDATED", "CATEGORY_DELETED",
   "HOBBY_CHANGED", "HOBBY_ADDED", "HOBBY_UPDATED", "HOBBY_DELETED",
   "GOAL_CHANGED", "GOAL_ADDED", "GOAL_UPDATED", "GOAL_DELETED",
   "PROGRESS_CHANGED", "PROGRESS_ADDED", "PROGRESS_UPDATED", "PROGRESS_DELETED",
   "DATABASE_CHANGED", "SYNC_STARTED", "SYNC_COMPLETED", "SYNC_FAILED"]

/-- The values of the `DataEvent` members: the event-name strings that
`broadcast(type, data)` posts as `payload.type` and that the event bus
uses as event names. -/
def dataEventValues : List String :=
  ["category:changed", "category:added", "category:updated", "category:deleted",
   "hobby:changed", "hobby:added", "hobby:updated", "hobby:deleted",
   "goal:changed", "goal:added", "goal:updated", "goal:deleted",
   "progress:changed", "progress:added", "progress:updated", "progress:deleted",
   "database:changed", "sync:started", "sync:completed", "sync:failed"]

/-- An incoming `message.data` value: either not a non-null object, or an
object with optional `type`, `data`, `timestamp` and `source` keys. -/
inductive RawMsg where
  | nonObject
  | obj (type? : Option String) (data? : Option EvData) (timestamp? : Option ℕ)
      (source? : Option String)
deriving DecidableEq, Repr

/-- `isDataEventPayload(payload)` (events/broadcastService.ts): the
payload must be a non-null object carrying `type` and `timestamp` keys
such that `payload.type in DataEvent` — membership among the keys of the
compiled enum object. -/
def isDataEventPayload : RawMsg → Bool
  | .nonObject => false
  | .obj t? _ ts? _ =>
      t?.isSome && ts?.isSome &&
        (match t? with
         | Option.some t => dataEventKeys.contains t
         | Option.none => false)

/-- The `onmessage` handler installed by the `BroadcastService`
constructor: a payload accepted by the type guard is republished on the
local event bus as `eventBus.publish(payload.type, payload.data)`;
anything else is logged and dropped (`none`). -/
def onMessage (m : RawMsg) : Option (String × Option EvData) :=
  if isDataEventPayload m then
    match m with
    | .obj (Option.some t) d? _ _ => Option.some (t, d?)
    | _ => Option.none
  else Option.none

/-- `broadcast(type, data)`: wrap the payload as
`{type, data, timestamp: Date.now(), source: "local"}` and post it. -/
def broadcast (type : String) (data : Option EvData) (now : ℕ) : RawMsg :=
  .obj (Option.some type) data (Option.some now) (Option.some "local")

end BroadcastService

namespace GoalService

/-- An entry of the in-memory `completionCache` of `GoalService`. -/
structure CacheEntry where
  value : ℚ
  timestamp : ℕ
deriving DecidableEq, Repr

/-- The `completionCache` map keyed by goal id. -/
def CompletionCache := String → Option CacheEntry

/-- The cache of a freshly constructed service. -/
def emptyCache : CompletionCache := fun _ => Option.none

/-- `CACHE_TTL`: 60 seconds in milliseconds. -/
def CACHE_TTL : ℕ := 60000

/-- `Math.min` on two (non-NaN) numbers. -/
def jsMin (a b : ℚ) : ℚ := if a ≤ b then a else b

/-- `Math.max` on two (non-NaN) numbers. -/
def jsMax (a b : ℚ) : ℚ := if a ≤ b then b else a

/-- The JavaScript expression `goal.timeRequirement || 1` of the
composite branch: an absent or zero (falsy) time requirement falls back
to one minute. -/
def jsOrOne (o : Option ℚ) : ℚ :=
  match o with
  | Option.none => 1
  | Option.some v => if v = 0 then 1 else v

/-- The `switch (goal.type)` of `calculateCompletion`, applied to the
goal and its (nonempty) progress records. -/
def completionOfRecords (goal : Goal) (recs : List Progress) : ℚ :=
  match goal.type with
  | .count => jsMin ((recs.map Progress.value).sum / goal.targetValue) 1
  | .quantity => jsMin ((recs.map Progress.value).sum / goal.targetValue) 1
  | .composite =>
      let totalTime := (recs.map (fun r =>
        match r.duration with | Option.some d => d | Option.none => 0)).sum
      let requiredTime := jsOrOne goal.timeRequirement
      let countCompletion := jsMin ((recs.length : ℚ) / goal.targetValue) 1
      let timeCompletion := jsMin (totalTime / requiredTime) 1
      jsMin countCompletion timeCompletion

/-- Steps 2–5 of `GoalService.calculateCompletion` (the path taken when
the cache does not answer): fetch the goal (one store read; absent goal
yields 0 and no cache write), fetch its progress records (a second store
read; no records yields 0 and no cache write), compute the completion by
goal type and cache it under the timestamp taken at entry.  Returns the
value, the number of store reads, and the updated cache. -/
def calculateCompletionUncached (now : ℕ) (s : Store) (cache : CompletionCache)
    (goalId : String) : ℚ × ℕ × CompletionCache :=
  match s.goals.find? (fun g => g.id = goalId) with
  | Option.none => (0, 1, cache)
  | Option.some goal =>
      let recs := s.progress.filter (fun p => p.goalId = goalId)
      if recs.isEmpty then (0, 2, cache)
      else
        let result := completionOfRecords goal recs
        (result, 2, fun x => if x = goalId then Option.some ⟨result, now⟩ else cache x)

/-- `GoalService.calculateCompletion(goalId)`: return the cached value
with no store read while the entry is younger than the TTL, otherwise
compute from the store. -/
def calculateCompletion (now : ℕ) (s : Store) (cache : CompletionCache)
    (goalId : String) : ℚ × ℕ × CompletionCache :=
  match cache goalId with
  | Option.some e =>
      if now - e.timestamp < CACHE_TTL then (e.value, 0, cache)
      else calculateCompletionUncached now s cache goalId
  | Option.none => calculateCompletionUncached now s cache goalId

/-- `GoalService.clearCompletionCache(goalId?)`: clear one entry or the
whole cache. -/
def clearCompletionCache (goalId? : Option String) (cache : CompletionCache) :
    CompletionCache :=
  match goalId? with
  | Option.some goalId => fun x => if x = goalId then Option.none else cache x
  | Option.none => fun _ => Option.none

end GoalService

/-- Concrete fixture: a count goal whose progress sum is negative. -/
def goalNeg : Goal :=
  { id := "gn", hobbyId := "h1", type := GoalType.count, period := GoalPeriod.daily,
    targetValue := 1, createdAt := 0, updatedAt := 0 }

/-- Concrete fixture: a composite goal with a fractional time requirement
of half a minute. -/
def goalHalf : Goal :=
  { id := "gh", hobbyId := "h1", type := GoalType.composite, period := GoalPeriod.daily,
    targetValue := 1, timeRequirement := Option.some (1/2), createdAt := 0, updatedAt := 0 }

/-- Concrete fixture: a progress record with a negative value. -/
def progNeg : Progress :=
  { id := "pn", goalId := "gn", recordedAt := 0, value := -1, createdAt := 0, updatedAt := 0 }

/-- Concrete fixture: a progress record with a quarter-minute duration. -/
def progHalf : Progress :=
  { id := "ph", goalId := "gh", recordedAt := 0, value := 1,
    duration := Option.some (1/4), createdAt := 0, updatedAt := 0 }

/-- Concrete fixture: a goal with no progress records. -/
def goalLonely : Goal :=
  { id := "gl", hobbyId := "h1", type := GoalType.count, period := GoalPeriod.daily,
    targetValue := 3, createdAt := 0, updatedAt := 0 }

/-- Concrete fixture: a store exercising the completion edge cases. -/
def store2 : Store :=
  { categories := [], hobbies := [], goals := [goalNeg, goalHalf, goalLonely],
    progress := [progNeg, progHalf] }

/-- Concrete fixture: a store where hobby `h2` has no goals and goal
`gl` has no progress records. -/
def store3 : Store :=
  { categories := [cat1], hobbies := [hobby1, hobby2], goals := [goal1, goalLonely],
    progress := [prog1] }

/-- Concrete fixture: a completion cache holding an entry for `g1`. -/
def cacheFix : GoalService.CompletionCache :=
  fun x => if x = "g1" then Option.some ⟨7, 500⟩ else Option.none

/-- The result record of `safeDelete` (`{success, message?, confirmAction?}`). -/
structure SafeDeleteResult where
  success : Bool
  message : Option String := Option.none
  confirmAction : Option String := Option.none
deriving DecidableEq, Repr

/-- State threaded through a fallible storage computation: the store, the
goal service's completion cache, the clock, a step counter with an
optional injected failure point, and the trace of observable effects
(events and broadcasts survive a transaction rollback; the store does
not). -/
structure CascState where
  store : Store
  cache : GoalService.CompletionCache
  now : ℕ
  tick : ℕ
  failAt : Option ℕ
  trace : List TraceEv

/-- A fallible storage computation: state in, a result or an error plus
the state as left behind (an error does not undo prior effects — only
`dbTransaction` restores the store). -/
def Casc (α : Type) := CascState → Except String α × CascState

/-- Sequencing of storage computations: an error short-circuits. -/
def Casc.bind (x : Casc α) (f : α → Casc β) : Casc β := fun st =>
  match x st with
  | (Except.ok a, st') => f a st'
  | (Except.error e, st') => (Except.error e, st')

/-- A pure value as a storage computation. -/
def Casc.pure (a : α) : Casc α := fun st => (Except.ok a, st)

instance : Monad Casc where
  pure := Casc.pure
  bind := Casc.bind

/-- One fallible storage step: each Dexie call consumes a tick and throws
when the injected failure point is reached. -/
def Casc.step : Casc Unit := fun st =>
  if st.failAt = Option.some st.tick then
    (Except.error "injected failure", { st with tick := st.tick + 1 })
  else (Except.ok (), { st with tick := st.tick + 1 })

/-- Read the current store. -/
def Casc.getStore : Casc Store := fun st => (Except.ok st.store, st)

/-- Replace the store. -/
def Casc.setStore (s : Store) : Casc Unit := fun st => (Except.ok (), { st with store := s })

/-- Append observable effects to the trace. -/
def Casc.emitAll (evs : List TraceEv) : Casc Unit := fun st =>
  (Except.ok (), { st with trace := st.trace ++ evs })

/-- `db.goals.where("hobbyId").equals(hobbyId).toArray()`. -/
def qGoalsByHobbyId (hobbyId : String) : Casc (List Goal) := do
  Casc.step
  let s ← Casc.getStore
  pure (s.goals.filter (fun g => g.hobbyId = hobbyId))

/-- `db.progress.where("goalId").equals(goalId).toArray()`. -/
def qProgressByGoalId (goalId : String) : Casc (List Progress) := do
  Casc.step
  let s ← Casc.getStore
  pure (s.progress.filter (fun p => p.goalId = goalId))

/-- `db.hobbies.where("categoryId").equals(categoryId).toArray()`. -/
def qHobbiesByCategoryId (categoryId : String) : Casc (List Hobby) := do
  Casc.step
  let s ← Casc.getStore
  pure (s.hobbies.filter (fun h => h.categoryId = categoryId))

/-- `db.progress.where("goalId").equals(goalId).delete()`. -/
def delProgressWhereGoalId (goalId : String) : Casc Unit := do
  Casc.step
  let s ← Casc.getStore
  Casc.setStore { s with progress := s.progress.filter (fun p => ¬ p.goalId = goalId) }
  Casc.emitAll [TraceEv.delWhere .progress "goalId" goalId]

/-- `db.goals.where("hobbyId").equals(hobbyId).delete()`. -/
def delGoalsWhereHobbyId (hobbyId : String) : Casc Unit := do
  Casc.step
  let s ← Casc.getStore
  Casc.setStore { s with goals := s.goals.filter (fun g => ¬ g.hobbyId = hobbyId) }
  Casc.emitAll [TraceEv.delWhere .goals "hobbyId" hobbyId]

/-- `db.hobbies.where("categoryId").equals(categoryId).delete()`. -/
def delHobbiesWhereCategoryId (categoryId : String) : Casc Unit := do
  Casc.step
  let s ← Casc.getStore
  Casc.setStore { s with hobbies := s.hobbies.filter (fun h => ¬ h.categoryId = categoryId) }
  Casc.emitAll [TraceEv.delWhere .hobbies "categoryId" categoryId]

/-- `db.goals.delete(goalId)` (primary-key delete). -/
def delGoalKey (goalId : String) : Casc Unit := do
  Casc.step
  let s ← Casc.getStore
  Casc.setStore { s with goals := s.goals.filter (fun g => ¬ g.id = goalId) }
  Casc.emitAll [TraceEv.delKey .goals goalId]

/-- `db.hobbies.delete(hobbyId)` (primary-key delete). -/
def delHobbyKey (hobbyId : String) : Casc Unit := do
  Casc.step
  let s ← Casc.getStore
  Casc.setStore { s with hobbies := s.hobbies.filter (fun h => ¬ h.id = hobbyId) }
  Casc.emitAll [TraceEv.delKey .hobbies hobbyId]

/-- `db.categories.delete(categoryId)` (primary-key delete). -/
def delCategoryKey (categoryId : String) : Casc Unit := do
  Casc.step
  let s ← Casc.getStore
  Casc.setStore { s with categories := s.categories.filter (fun c => ¬ c.id = categoryId) }
  Casc.emitAll [TraceEv.delKey .categories categoryId]

/-- `syncService.markForSync(table, id, op)` as a storage step: applies
the pure `SyncService.markForSync` (a read plus a conditional sync-field
write with its events) to the current store at the current clock. -/
def mMarkForSync (tbl : TableName) (id : String) (op : SyncOperationType) : Casc Unit := do
  Casc.step
  fun st =>
    let res := SyncService.markForSync tbl id op st.now st.store
    (Except.ok (), { st with store := res.1, trace := st.trace ++ res.2 })

/-- `dbObserver.notifyChange(event, data)`: publish the event envelope on
the local event bus, broadcast it to other tabs, and publish the
`DATABASE_CHANGED` umbrella event (events/dbObserver.ts). -/
def mNotifyChange (name : String) (d : EvData) : Casc Unit :=
  Casc.emitAll [TraceEv.pub name d, TraceEv.bcast name d,
    TraceEv.pub "database:changed" (EvData.dbChanged name)]

/-- `this.completionCache.delete(goalId)` inside the goal cascade: a
synchronous map mutation, not a storage step, and not rolled back. -/
def mCacheDelete (goalId : String) : Casc Unit := fun st =>
  (Except.ok (), { st with cache := fun x => if x = goalId then Option.none else st.cache x })

/-- `db.transaction("rw", tables, body)`: on success the body's effects
stand; on failure the store reverts to its state at transaction entry
while the events already published and the consumed ticks remain. -/
def dbTransaction (body : Casc Unit) : Casc Unit := fun st =>
  match body st with
  | (Except.ok a, st') => (Except.ok a, st')
  | (Except.error e, st') => (Except.error e, { st' with store := st.store })

/-- `executeDbOperation(operation, errorMessage)`: catch, log and rethrow
a failure as a descriptive error carrying the original message. -/
def executeDbOperation (body : Casc α) (msg : String) : Casc α := fun st =>
  match body st with
  | (Except.ok a, st') => (Except.ok a, st')
  | (Except.error e, st') => (Except.error (msg ++ ": " ++ e), st')

/-- A `try`/`catch` around a storage computation. -/
def tsTryCatch (body : Casc α) (handler : String → Casc α) : Casc α := fun st =>
  match body st with
  | (Except.ok a, st') => (Except.ok a, st')
  | (Except.error e, st') => handler e st'

/-- Run a computation from a fresh state and project the result, the
final store and the trace. -/
def runCasc (act : Casc α) (failAt : Option ℕ) (now : ℕ) (s : Store) :
    Except String α × Store × List TraceEv :=
  let r := act { store := s, cache := GoalService.emptyCache, now := now,
                 tick := 0, failAt := failAt, trace := [] }
  (r.1, r.2.store, r.2.trace)

namespace HobbyService

/-- The inner loop of `HobbyService.deleteWithRelated`: mark every
progress record of the goal pending-delete. -/
def markProgressLoop : List Progress → Casc Unit
  | [] => pure ()
  | p :: rest => do
      mMarkForSync .progress p.id SyncOperationType.delete
      markProgressLoop rest

/-- The per-goal loop of `HobbyService.deleteWithRelated`: fetch the
goal's progress records, mark them pending-delete, delete them, and emit
the goal-scoped `PROGRESS_DELETED` event. -/
def goalCascadeLoop : List Goal → Casc Unit
  | [] => pure ()
  | g :: rest => do
      let recs ← qProgressByGoalId g.id
      markProgressLoop recs
      delProgressWhereGoalId g.id
      mNotifyChange "progress:deleted" (EvData.withGoalId g.id)
      goalCascadeLoop rest

/-- The goal-marking loop of `HobbyService.deleteWithRelated`. -/
def markGoalsLoop : List Goal → Casc Unit
  | [] => pure ()
  | g :: rest => do
      mMarkForSync .goals g.id SyncOperationType.delete
      markGoalsLoop rest

/-- `HobbyService.deleteWithRelated(hobbyId)` (services/HobbyService.ts,
sync-aware version): one transaction over hobbies, goals and progress,
deleting progress (marked, per goal, with a scoped event), then goals
(marked, with a scoped event), then the hobby itself (marked, with its
event). -/
def deleteWithRelated (hobbyId : String) : Casc Unit :=
  executeDbOperation (dbTransaction (do
      let relatedGoals ← qGoalsByHobbyId hobbyId
      goalCascadeLoop relatedGoals
      markGoalsLoop relatedGoals
      delGoalsWhereHobbyId hobbyId
      mNotifyChange "goal:deleted" (EvData.withHobbyId hobbyId)
      mMarkForSync .hobbies hobbyId SyncOperationType.delete
      delHobbyKey hobbyId
      mNotifyChange "hobby:deleted" (EvData.str hobbyId)))
    ("刪除興趣項目 ID 為 " ++ hobbyId ++ " 及其相關目標和進度記錄失敗")

/-- `HobbyService.hasRelatedGoals(hobbyId)`: a count query on the
`hobbyId` index, true when the count is positive. -/
def hasRelatedGoals (hobbyId : String) : Casc Bool := do
  Casc.step
  let s ← Casc.getStore
  pure (decide (0 < s.goals.countP (fun g => g.hobbyId = hobbyId)))

/-- `BaseService.delete(id)` of the sync-aware base, at the hobbies
table: mark pending-delete, then delete the row. -/
def baseDelete (hobbyId : String) : Casc Unit :=
  executeDbOperation (do
      mMarkForSync .hobbies hobbyId SyncOperationType.delete
      delHobbyKey hobbyId)
    ("刪除 ID 為 " ++ hobbyId ++ " 的記錄失敗")

/-- The `HobbyService.delete` override: the base delete plus the
`HOBBY_DELETED` change notification. -/
def delete (hobbyId : String) : Casc Unit := do
  baseDelete hobbyId
  mNotifyChange "hobby:deleted" (EvData.str hobbyId)

/-- `HobbyService.safeDelete(hobbyId)`: refuse (with a confirm action)
when related goals exist, otherwise delete; any exception is caught and
returned as a failure result. -/
def safeDelete (hobbyId : String) : Casc SafeDeleteResult :=
  tsTryCatch (do
      let hasRelated ← hasRelatedGoals hobbyId
      if hasRelated then
        pure { success := false
               message := Option.some "刪除此興趣項目將同時刪除所有相關的目標及進度記錄。確定要繼續嗎？"
               confirmAction := Option.some "deleteWithRelated" }
      else do
        delete hobbyId
        pure { success := true })
    (fun e => pure { success := false, message := Option.some ("刪除失敗: " ++ e) })

end HobbyService

namespace CategoryService

/-- Step 2.2 of `CategoryService.deleteWithRelated`: delete the progress
records of each goal. -/
def goalProgressLoop : List Goal → Casc Unit
  | [] => pure ()
  | g :: rest => do
      delProgressWhereGoalId g.id
      goalProgressLoop rest

/-- Step 2 of `CategoryService.deleteWithRelated`: per hobby, fetch its
goals, delete their progress, then delete the goals. -/
def hobbyCascadeLoop : List Hobby → Casc Unit
  | [] => pure ()
  | h :: rest => do
      let relatedGoals ← qGoalsByHobbyId h.id
      goalProgressLoop relatedGoals
      delGoalsWhereHobbyId h.id
      hobbyCascadeLoop rest

/-- `CategoryService.deleteWithRelated(categoryId)` (App.tsx): one
transaction over all four tables, deleting depth-first — progress per
goal, goals per hobby, the hobbies of the category, then the category —
with no sync stamping and no change events. -/
def deleteWithRelated (categoryId : String) : Casc Unit :=
  executeDbOperation (dbTransaction (do
      let relatedHobbies ← qHobbiesByCategoryId categoryId
      hobbyCascadeLoop relatedHobbies
      delHobbiesWhereCategoryId categoryId
      delCategoryKey categoryId))
    ("刪除分類 ID 為 " ++ categoryId ++ " 及其相關聯的興趣項目、目標和進度記錄失敗")

end CategoryService

namespace GoalService

/-- `GoalService.deleteWithRelated(goalId)`: one transaction over goals
and progress — delete the goal's progress records, the goal itself, and
drop the goal's completion-cache entry. -/
def deleteWithRelated (goalId : String) : Casc Unit :=
  executeDbOperation (dbTransaction (do
      delProgressWhereGoalId goalId
      delGoalKey goalId
      mCacheDelete goalId))
    ("刪除目標 ID 為 " ++ goalId ++ " 及其相關進度記錄失敗")

/-- `GoalService.hasRelatedProgress(goalId)`: a count query on the
`goalId` index, true when the count is positive. -/
def hasRelatedProgress (goalId : String) : Casc Bool := do
  Casc.step
  let s ← Casc.getStore
  pure (decide (0 < s.progress.countP (fun p => p.goalId = goalId)))

/-- `BaseService.delete(id)` of the plain base service `GoalService`
extends, at the goals table: `table.delete(id)` wrapped in the uniform
error handler. -/
def baseDelete (goalId : String) : Casc Unit :=
  executeDbOperation (delGoalKey goalId)
    ("刪除 ID 為 " ++ goalId ++ " 的記錄失敗")

/-- `GoalService.safeDelete(goalId)`: refuse (with a confirm action) when
related progress records exist, otherwise delete; any exception is
caught and returned as a failure result. -/
def safeDelete (goalId : String) : Casc SafeDeleteResult :=
  tsTryCatch (do
      let hasRelated ← hasRelatedProgress goalId
      if hasRelated then
        pure { success := false
               message := Option.some "刪除此目標將同時刪除所有相關的進度記錄。確定要繼續嗎？"
               confirmAction := Option.some "deleteWithRelated" }
      else do
        baseDelete goalId
        pure { success := true })
    (fun e => pure { success := false, message := Option.some ("刪除失敗: " ++ e) })

end GoalService

/-- Whether a trace entry is a Dexie delete operation. -/
def isDeleteEv : TraceEv → Bool
  | .delWhere _ _ _ => true
  | .delKey _ _ => true
  | _ => false

/-- Whether a trace entry is a deletion event published on the local
event bus (`PROGRESS_DELETED`, `GOAL_DELETED`, `HOBBY_DELETED`,
`CATEGORY_DELETED`). -/
def isDeletionPubEv : TraceEv → Bool
  | .pub name _ =>
      name = "progress:deleted" || name = "goal:deleted" ||
        name = "hobby:deleted" || name = "category:deleted"
  | _ => false

/-- Whether a trace entry is a sync-field write. -/
def isSyncWriteEv : TraceEv → Bool
  | .syncWrite _ _ _ => true
  | _ => false

/-- The sync-field bundle `markForSync(_, _, DELETE)` writes at time
`now`: a pending-delete marker. -/
def pendingDeleteSF (now : ℕ) : SyncFields :=
  SyncService.mkSyncFields SyncStatus.pending
    { localUpdatedAt := Option.some now
      pendingOperation := Option.some SyncOperationType.delete } now

/-- Helper: a list with no row matching an id, extended with a matching
row, then rewritten at that id, finds the rewritten appended row. -/
theorem find_append_write_hobby (l : List Hobby) (x : Hobby) (id : String)
    (g : Hobby → Hobby) (hl : l.any (fun r => r.id = id) = false) (hx : x.id = id)
    (hg : ∀ r, (g r).id = r.id) :
    ((l ++ [x]).map (fun r => if r.id = id then g r else r)).find?
      (fun r => r.id = id) = Option.some (g x) := by
  induction l with
  | nil => simp [hx, hg, List.find?]
  | cons a as ih =>
      simp only [List.any_cons, Bool.or_eq_false_iff] at hl
      have ha : ¬ (a.id = id) := by
        intro h
        simp [h] at hl
      simp only [List.cons_append, List.map_cons]
      rw [if_neg ha, List.find?_cons_of_neg _ (by simpa using ha)]
      exact ih hl.2

/-- Helper: rewriting a list of categories at an id and then looking that
id up finds the rewritten version of the first match. -/
theorem find_write_category (l : List Category) (r : Category) (id : String)
    (g : Category → Category)
    (hfind : l.find? (fun c => c.id = id) = Option.some r)
    (hg : ∀ c, (g c).id = c.id) :
    (l.map (fun c => if c.id = id then g c else c)).find?
      (fun c => c.id = id) = Option.some (g r) := by
  induction l with
  | nil => simp [List.find?] at hfind
  | cons a as ih =>
      by_cases ha : a.id = id
      · rw [List.find?_cons_of_pos _ (by simpa using ha)] at hfind
        have har : a = r := by simpa using hfind
        simp only [List.map_cons]
        rw [if_pos ha, List.find?_cons_of_pos _ (by simp [hg, ha]), har]
      · rw [List.find?_cons_of_neg _ (by simpa using ha)] at hfind
        simp only [List.map_cons]
        rw [if_neg ha, List.find?_cons_of_neg _ (by simpa using ha)]
        exact ih hfind

/-- Helper: appending a matching row to a list with no row matching the
id makes the appended row the first match. -/
theorem find_append_hobby (l : List Hobby) (x : Hobby) (id : String)
    (hl : l.any (fun r => r.id = id) = false) (hx : x.id = id) :
    (l ++ [x]).find? (fun r => r.id = id) = Option.some x := by
  induction l with
  | nil => simp [List.find?, hx]
  | cons a as ih =>
      simp only [List.any_cons, Bool.or_eq_false_iff] at hl
      have ha : ¬ (a.id = id) := by
        intro h
        simp [h] at hl
      simp only [List.cons_append]
      rw [List.find?_cons_of_neg _ (by simpa using ha)]
      exact ih hl.2

/-- C4: after `add(item)` succeeds, the persisted row carries
`syncStatus = pending`, `pendingOperation = create`, and a defined
`localUpdatedAt`; after `resolveConflict(..., "server")` the row's domain
fields equal the supplied server snapshot, `syncStatus = synced`,
`conflictData` is cleared, and `serverUpdatedAt`/`lastSyncedAt` are
stamped; after `resolveConflict(..., "local")` the row is re-marked
`pending` with `pendingOperation = update`. -/
theorem C4_sync_stamping_roundtrip :
    (∀ (item : Hobby) (now : ℕ) (s : Store),
      s.hobbies.any (fun r => r.id = item.id) = false →
      ∃ s2 evs row,
        BaseService.add item now s = Except.ok (item.id, s2, evs) ∧
        s2.hobbies.find? (fun r => r.id = item.id) = Option.some row ∧
        row.sync.syncStatus = Option.some SyncStatus.pending ∧
        row.sync.pendingOperation = Option.some SyncOperationType.create ∧
        row.sync.localUpdatedAt = Option.some now ∧
        row.name = item.name ∧ row.categoryId = item.categoryId) ∧
    (∀ (id : String) (localData serverData : Category) (now : ℕ) (s : Store) (r : Category),
      s.categories.find? (fun c => c.id = id) = Option.some r →
      ∃ row,
        (SyncService.resolveConflict id localData serverData
            SyncService.Resolution.serverWins now s).1.categories.find?
          (fun c => c.id = id) = Option.some row ∧
        row.name = serverData.name ∧ row.color = serverData.color ∧
        row.icon = serverData.icon ∧ row.createdAt = serverData.createdAt ∧
        row.updatedAt = serverData.updatedAt ∧
        row.sync.syncStatus = Option.some SyncStatus.synced ∧
        row.sync.conflictData = Option.none ∧
        row.sync.serverUpdatedAt = Option.some now ∧
        row.sync.lastSyncedAt = Option.some now) ∧
    (∀ (id : String) (localData serverData : Category) (now : ℕ) (s : Store) (r : Category),
      s.categories.find? (fun c => c.id = id) = Option.some r →
      ∃ row,
        (SyncService.resolveConflict id localData serverData
            SyncService.Resolution.localWins now s).1.categories.find?
          (fun c => c.id = id) = Option.some row ∧
        row.sync.syncStatus = Option.some SyncStatus.pending ∧
        row.sync.pendingOperation = Option.some SyncOperationType.update) := by
  refine ⟨?_, ?_, ?_⟩
  · intro item now s hl
    have hfind1 : Store.findSync (addS1 item now s) TableName.hobbies item.id
        = Option.some (addStamped item now).sync := by
      simp only [Store.findSync, addS1]
      rw [find_append_hobby s.hobbies (addStamped item now) item.id hl rfl]
      rfl
    have hmark : SyncService.markForSync TableName.hobbies item.id
        SyncOperationType.create now (addS1 item now s)
        = ((addS1 item now s).writeSync TableName.hobbies item.id (addSf now),
           TraceEv.syncWrite TableName.hobbies item.id (addSf now) ::
             (SyncService.notifySyncStatusChanged TableName.hobbies item.id
                (addStamped item now).sync.syncStatus SyncStatus.pending
                (Option.some (addSf now)) now
               ++ [SyncService.updateGlobalSyncCounts
                    ((addS1 item now s).writeSync TableName.hobbies item.id (addSf now)) now])) := by
      simp only [SyncService.markForSync, SyncService.updateEntitySyncStatus, hfind1]
      rfl
    have hbody : BaseService.add item now s
        = Except.ok (item.id,
            (SyncService.markForSync TableName.hobbies item.id
              SyncOperationType.create now (addS1 item now s)).1,
            (SyncService.markForSync TableName.hobbies item.id
              SyncOperationType.create now (addS1 item now s)).2) := by
      simp only [BaseService.add, hl, Bool.false_eq_true, if_false]
      rfl
    have hfind2 : ((SyncService.markForSync TableName.hobbies item.id
        SyncOperationType.create now (addS1 item now s)).1).hobbies.find?
        (fun r => r.id = item.id)
        = Option.some { addStamped item now with sync := addSf now } := by
      rw [hmark]
      simp only [Store.writeSync, addS1]
      exact find_append_write_hobby s.hobbies (addStamped item now) item.id
        (fun r => { r with sync := addSf now }) hl rfl (fun r => rfl)
    exact ⟨_, _, _, hbody, hfind2, rfl, rfl, rfl, rfl, rfl⟩
  · intro id localData serverData now s r hfind
    refine ⟨SyncService.applyServerWins r serverData now, ?_, rfl, rfl, rfl, rfl, rfl,
      rfl, rfl, rfl, rfl⟩
    simp only [SyncService.resolveConflict]
    exact find_write_category s.categories r id _ hfind (fun c => rfl)
  · intro id localData serverData now s r hfind
    have hfs : s.findSync TableName.categories id = Option.some r.sync := by
      simp only [Store.findSync, hfind]
      rfl
    refine ⟨({ r with sync := SyncService.mkSyncFields SyncStatus.pending { localUpdatedAt := Option.some now, pendingOperation := Option.some SyncOperationType.update } now } : Category), ?_, rfl, rfl⟩
    simp only [SyncService.resolveConflict, SyncService.markForSync,
      SyncService.updateEntitySyncStatus, hfs]
    simp only [Store.writeSync]
    exact find_write_category s.categories r id _ hfind (fun c => rfl)

/-- C4 witness: the round-trip at a concrete store — adding a fresh hobby
at t=100, then resolving a conflict on category `c1` server-wins at t=200
and local-wins at t=300. -/
theorem C4_sync_stamping_roundtrip_witness :
    (∃ s2 evs row,
        BaseService.add hobby2 100 store1 = Except.ok (hobby2.id, s2, evs) ∧
        s2.hobbies.find? (fun r => r.id = hobby2.id) = Option.some row ∧
        row.sync.syncStatus = Option.some SyncStatus.pending ∧
        row.sync.pendingOperation = Option.some SyncOperationType.create ∧
        row.sync.localUpdatedAt = Option.some 100 ∧
        row.name = hobby2.name ∧ row.categoryId = hobby2.categoryId) ∧
    (∃ row,
        (SyncService.resolveConflict "c1" cat1 catServer
            SyncService.Resolution.serverWins 200 store1).1.categories.find?
          (fun c => c.id = "c1") = Option.some row ∧
        row.name = catServer.name ∧ row.color = catServer.color ∧
        row.icon = catServer.icon ∧ row.createdAt = catServer.createdAt ∧
        row.updatedAt = catServer.updatedAt ∧
        row.sync.syncStatus = Option.some SyncStatus.synced ∧
        row.sync.conflictData = Option.none ∧
        row.sync.serverUpdatedAt = Option.some 200 ∧
        row.sync.lastSyncedAt = Option.some 200) ∧
    (∃ row,
        (SyncService.resolveConflict "c1" cat1 catServer
            SyncService.Resolution.localWins 300 store1).1.categories.find?
          (fun c => c.id = "c1") = Option.some row ∧
        row.sync.syncStatus = Option.some SyncStatus.pending ∧
        row.sync.pendingOperation = Option.some SyncOperationType.update) :=
  ⟨C4_sync_stamping_roundtrip.1 hobby2 100 store1 (by decide),
   C4_sync_stamping_roundtrip.2.1 "c1" cat1 catServer 200 store1 cat1 (by decide),
   C4_sync_stamping_roundtrip.2.2 "c1" cat1 catServer 300 store1 cat1 (by decide)⟩

/-- C6: `updateEntitySyncStatus(table, id, status, metadataPatch)` on a
missing row returns normally, modifies nothing and publishes nothing;
on an existing row it writes the sync fields and then publishes the
entity status-change event, its table-suffixed variant, and one
`GLOBAL_SYNC_STATUS_CHANGED` event carrying the pending, failed and
conflict totals summed across the four tables together with a timestamp. -/
theorem C6_updateEntitySyncStatus :
    (∀ (tbl : TableName) (id : String) (status : SyncStatus)
        (meta : SyncService.SyncMetadataPatch) (now : ℕ) (s : Store),
      s.findSync tbl id = Option.none →
      SyncService.updateEntitySyncStatus tbl id status meta now s = (s, [])) ∧
    (∀ (tbl : TableName) (id : String) (status : SyncStatus)
        (meta : SyncService.SyncMetadataPatch) (now : ℕ) (s : Store) (old : SyncFields),
      s.findSync tbl id = Option.some old →
      SyncService.updateEntitySyncStatus tbl id status meta now s =
        (let sf := SyncService.mkSyncFields status meta now
         let s' := s.writeSync tbl id sf
         let ev : SyncStatusChangeEvent :=
           { entityType := tbl.str, entityId := id, oldStatus := old.syncStatus,
             newStatus := status, timestamp := now, metadata := Option.some sf }
         (s',
          [TraceEv.syncWrite tbl id sf,
           TraceEv.pub "sync:entity:status:changed" (EvData.statusChange ev),
           TraceEv.pub ("sync:entity:status:changed:" ++ tbl.str) (EvData.statusChange ev),
           TraceEv.pub "sync:global:status:changed" (EvData.globalCounts
             { pendingItemsCount :=
                 SyncService.countStatus s' TableName.categories SyncStatus.pending +
                   SyncService.countStatus s' TableName.hobbies SyncStatus.pending +
                   SyncService.countStatus s' TableName.goals SyncStatus.pending +
                   SyncService.countStatus s' TableName.progress SyncStatus.pending
               failedItemsCount :=
                 SyncService.countStatus s' TableName.categories SyncStatus.failed +
                   SyncService.countStatus s' TableName.hobbies SyncStatus.failed +
                   SyncService.countStatus s' TableName.goals SyncStatus.failed +
                   SyncService.countStatus s' TableName.progress SyncStatus.failed
               conflictItemsCount :=
                 SyncService.countStatus s' TableName.categories SyncStatus.conflict +
                   SyncService.countStatus s' TableName.hobbies SyncStatus.conflict +
                   SyncService.countStatus s' TableName.goals SyncStatus.conflict +
                   SyncService.countStatus s' TableName.progress SyncStatus.conflict
               timestamp := now })]))) := by
  constructor
  · intro tbl id status meta now s h
    simp only [SyncService.updateEntitySyncStatus, h]
  · intro tbl id status meta now s old h
    simp only [SyncService.updateEntitySyncStatus, h]
    rfl

/-- C6 witness: at the concrete store, a status update for a vanished
goal id is a silent no-op, and a status update for the live goal `g1`
publishes exactly three events after the sync write. -/
theorem C6_updateEntitySyncStatus_witness :
    SyncService.updateEntitySyncStatus TableName.goals "nope" SyncStatus.failed {} 7 store1
      = (store1, []) ∧
    (SyncService.updateEntitySyncStatus TableName.goals "g1" SyncStatus.failed {} 7 store1).2.length = 4 := by
  constructor
  · exact C6_updateEntitySyncStatus.1 TableName.goals "nope" SyncStatus.failed {} 7 store1 (by decide)
  · rw [C6_updateEntitySyncStatus.2 TableName.goals "g1" SyncStatus.failed {} 7 store1
      goal1.sync (by decide)]
    rfl

/-- Helper: the dispatch loop is the flat map of per-callback steps. -/
theorem runCallbacks_eq_flatMap (cs : List EventBus.EventCallback) (data : String) :
    EventBus.runCallbacks cs data
      = cs.flatMap (fun c =>
          EventBus.BusEv.invoked c.cid data ::
            if c.fails then [EventBus.BusEv.errLogged c.cid] else []) := by
  induction cs with
  | nil => rfl
  | cons c rest ih => simp only [EventBus.runCallbacks, List.flatMap_cons, ih]

/-- Helper: the invocations of the dispatch loop are exactly one per
callback, in order, with the published data. -/
theorem runCallbacks_invocations (cs : List EventBus.EventCallback) (data : String) :
    (EventBus.runCallbacks cs data).filter EventBus.BusEv.isInvoked
      = cs.map (fun c => EventBus.BusEv.invoked c.cid data) := by
  induction cs with
  | nil => rfl
  | cons c rest ih =>
      simp only [EventBus.runCallbacks, List.filter_append, List.map_cons, ih]
      rcases hc : c.fails with _ | _ <;>
        simp [List.filter, EventBus.BusEv.isInvoked]

/-- Helper: a throwing callback of the list gets its exception logged. -/
theorem runCallbacks_errLogged (cs : List EventBus.EventCallback) (data : String)
    (c : EventBus.EventCallback) (hc : c ∈ cs) (hfail : c.fails = true) :
    EventBus.BusEv.errLogged c.cid ∈ EventBus.runCallbacks cs data := by
  induction cs with
  | nil => simp at hc
  | cons c2 rest ih =>
      simp only [EventBus.runCallbacks, List.mem_append, List.mem_cons]
      rcases List.mem_cons.mp hc with h | h
      · subst h
        rw [hfail]
        simp
      · exact Or.inr (ih h)

/-- C9: `publish(event, data)` invokes every subscriber of the event
exactly once, in subscription order, with the published data; a throwing
subscriber is caught and logged without stopping the dispatch of the
subscribers after it; `publish` is a total function, so nothing
propagates to the publisher. -/
theorem C9_publish_isolated_dispatch :
    ∀ (r : EventBus.Registry) (event data : String),
      EventBus.publish event data r
        = (r event).flatMap (fun c =>
            EventBus.BusEv.invoked c.cid data ::
              if c.fails then [EventBus.BusEv.errLogged c.cid] else []) ∧
      (EventBus.publish event data r).filter EventBus.BusEv.isInvoked
        = (r event).map (fun c => EventBus.BusEv.invoked c.cid data) ∧
      (∀ c ∈ r event, c.fails = true →
        EventBus.BusEv.errLogged c.cid ∈ EventBus.publish event data r) := by
  intro r event data
  exact ⟨runCallbacks_eq_flatMap (r event) data,
         runCallbacks_invocations (r event) data,
         fun c hc hfail => runCallbacks_errLogged (r event) data c hc hfail⟩

/-- C9 witness: at the concrete registry with a throwing first subscriber,
the second subscriber still runs, the error is logged, and every
subscriber is invoked once in order. -/
theorem C9_publish_isolated_dispatch_witness :
    EventBus.publish "evt" "d" busReg1
      = (busReg1 "evt").flatMap (fun c =>
          EventBus.BusEv.invoked c.cid "d" ::
            if c.fails then [EventBus.BusEv.errLogged c.cid] else []) ∧
    (EventBus.publish "evt" "d" busReg1).filter EventBus.BusEv.isInvoked
      = (busReg1 "evt").map (fun c => EventBus.BusEv.invoked c.cid "d") ∧
    EventBus.BusEv.errLogged 1 ∈ EventBus.publish "evt" "d" busReg1 :=
  ⟨(C9_publish_isolated_dispatch busReg1 "evt" "d").1,
   (C9_publish_isolated_dispatch busReg1 "evt" "d").2.1,
   (C9_publish_isolated_dispatch busReg1 "evt" "d").2.2 ⟨1, true⟩ (by decide) rfl⟩

/-- Helper: every step produced by the dispatch loop belongs to some
callback of the dispatched list. -/
theorem runCallbacks_shape (cs : List EventBus.EventCallback) (data : String) :
    ∀ b ∈ EventBus.runCallbacks cs data,
      ∃ c ∈ cs, b = EventBus.BusEv.invoked c.cid data ∨ b = EventBus.BusEv.errLogged c.cid := by
  induction cs with
  | nil => intro b hb; simp [EventBus.runCallbacks] at hb
  | cons c rest ih =>
      intro b hb
      simp only [EventBus.runCallbacks, List.cons_append, List.mem_cons, List.mem_append] at hb
      rcases hb with hb | hb
      · exact ⟨c, List.mem_cons_self c rest, Or.inl hb⟩
      rcases hb with hb | hb
      · refine ⟨c, List.mem_cons_self c rest, Or.inr ?_⟩
        rcases hc : c.fails with _ | _ <;> rw [hc] at hb <;> simp at hb
        exact hb
      · obtain ⟨c2, hc2, hb2⟩ := ih b hb
        exact ⟨c2, List.mem_cons_of_mem c hc2, hb2⟩

/-- C10: subscribing a callback and invoking the returned unsubscribe
closure once removes exactly that one registration: the event's callback
list returns to its previous value, other events are untouched, and a
subsequent `publish` no longer invokes the callback while every other
callback still runs in its original subscription order. -/
theorem C10_unsubscribe_removes_registration :
    ∀ (r0 : EventBus.Registry) (event : String) (c : EventBus.EventCallback) (data : String),
      c ∉ r0 event →
      (∀ c2 ∈ r0 event, c2.cid ≠ c.cid) →
      (EventBus.unsubscribe event c (EventBus.subscribe event c r0)) event = r0 event ∧
      (∀ e, e ≠ event →
        (EventBus.unsubscribe event c (EventBus.subscribe event c r0)) e = r0 e) ∧
      EventBus.publish event data (EventBus.unsubscribe event c (EventBus.subscribe event c r0))
        = EventBus.publish event data r0 ∧
      (∀ b ∈ EventBus.publish event data
          (EventBus.unsubscribe event c (EventBus.subscribe event c r0)),
        b ≠ EventBus.BusEv.invoked c.cid data) ∧
      (EventBus.publish event data
          (EventBus.unsubscribe event c (EventBus.subscribe event c r0))).filter
        EventBus.BusEv.isInvoked
        = (r0 event).map (fun c2 => EventBus.BusEv.invoked c2.cid data) := by
  intro r0 event c data hnot hcid
  have hreg : (EventBus.unsubscribe event c (EventBus.subscribe event c r0)) event
      = r0 event := by
    simp only [EventBus.unsubscribe, EventBus.subscribe, if_pos, eq_self_iff_true, if_true]
    rw [List.erase_append_right _ (by simpa using hnot)]
    simp
  refine ⟨hreg, ?_, ?_, ?_, ?_⟩
  · intro e he
    simp only [EventBus.unsubscribe, EventBus.subscribe, if_neg he]
  · simp only [EventBus.publish, hreg]
  · intro b hb
    simp only [EventBus.publish, hreg] at hb
    obtain ⟨c2, hc2, hb2⟩ := runCallbacks_shape (r0 event) data b hb
    rcases hb2 with hb2 | hb2
    · subst hb2
      intro hcontra
      exact hcid c2 hc2 (by injection hcontra)
    · subst hb2
      intro hcontra
      cases hcontra
  · simp only [EventBus.publish, hreg]
    exact runCallbacks_invocations (r0 event) data

/-- C10 witness: at the concrete registry, subscribing callback 3 to
`evt` and immediately unsubscribing it restores the registry, and a
publish afterwards invokes exactly callbacks 1 and 2 in order. -/
theorem C10_unsubscribe_removes_registration_witness :
    (EventBus.unsubscribe "evt" ⟨3, false⟩ (EventBus.subscribe "evt" ⟨3, false⟩ busReg1)) "evt"
      = busReg1 "evt" ∧
    (∀ e, e ≠ "evt" →
      (EventBus.unsubscribe "evt" ⟨3, false⟩ (EventBus.subscribe "evt" ⟨3, false⟩ busReg1)) e
        = busReg1 e) ∧
    EventBus.publish "evt" "d"
        (EventBus.unsubscribe "evt" ⟨3, false⟩ (EventBus.subscribe "evt" ⟨3, false⟩ busReg1))
      = EventBus.publish "evt" "d" busReg1 ∧
    (∀ b ∈ EventBus.publish "evt" "d"
        (EventBus.unsubscribe "evt" ⟨3, false⟩ (EventBus.subscribe "evt" ⟨3, false⟩ busReg1)),
      b ≠ EventBus.BusEv.invoked 3 "d") ∧
    (EventBus.publish "evt" "d"
        (EventBus.unsubscribe "evt" ⟨3, false⟩ (EventBus.subscribe "evt" ⟨3, false⟩ busReg1))).filter
      EventBus.BusEv.isInvoked
      = (busReg1 "evt").map (fun c2 => EventBus.BusEv.invoked c2.cid "d") :=
  C10_unsubscribe_removes_registration busReg1 "evt" ⟨3, false⟩ "d"
    (by decide) (by decide)

/-- C8: the receive-side type guard of the broadcast adapter tests
`payload.type in DataEvent`, i.e. membership among the member names of
the compiled string enum ("HOBBY_ADDED", ...), while `broadcast` posts
the member values ("hobby:added", ...).  Hence the exact message that
`broadcast(DataEvent.HOBBY_ADDED, data)` posts — which carries a
recognized event type and a timestamp — is rejected by the guard and
dropped instead of being republished on the local event bus. -/
theorem C8_valid_broadcast_message_dropped :
    "hobby:added" ∈ BroadcastService.dataEventValues ∧
    BroadcastService.broadcast "hobby:added" (Option.some (EvData.str "x")) 1000
      = BroadcastService.RawMsg.obj (Option.some "hobby:added")
          (Option.some (EvData.str "x")) (Option.some 1000) (Option.some "local") ∧
    BroadcastService.isDataEventPayload
      (BroadcastService.broadcast "hobby:added" (Option.some (EvData.str "x")) 1000) = false ∧
    BroadcastService.onMessage
      (BroadcastService.broadcast "hobby:added" (Option.some (EvData.str "x")) 1000)
      = Option.none ∧
    (∀ t, t ∈ BroadcastService.dataEventValues →
      BroadcastService.isDataEventPayload
        (BroadcastService.broadcast t (Option.some (EvData.str "x")) 1000) = false) := by
  refine ⟨by decide, rfl, by decide, by decide, ?_⟩
  intro t ht
  fin_cases ht <;> decide

/-- C2 counterexample: at a concrete store the code's completion differs
from the claimed formula.  For the count goal `gn` (targetValue 1, one
progress record of value −1) the code returns −1, outside the claimed
clamp to [0,1]; for the composite goal `gh` (targetValue 1,
timeRequirement ½, one record of duration ¼) the code returns ½ while
the claimed formula `min(min(1/1,1), min((¼)/max(½,1),1))` yields ¼. -/
theorem C2_completion_formula_counterexample :
    (GoalService.calculateCompletion 0 store2 GoalService.emptyCache "gn").1 = -1 ∧
    ¬ (0 : ℚ) ≤ (GoalService.calculateCompletion 0 store2 GoalService.emptyCache "gn").1 ∧
    (GoalService.calculateCompletion 0 store2 GoalService.emptyCache "gh").1 = 1/2 ∧
    GoalService.jsMin (GoalService.jsMin ((1 : ℚ) / goalHalf.targetValue) 1)
      (GoalService.jsMin ((1/4 : ℚ) / GoalService.jsMax (1/2 : ℚ) 1) 1) = 1/4 := by
  have en : store2.goals.find? (fun g => g.id = "gn") = Option.some goalNeg := rfl
  have eh : store2.goals.find? (fun g => g.id = "gh") = Option.some goalHalf := rfl
  have fn : store2.progress.filter (fun p => p.goalId = "gn") = [progNeg] := rfl
  have fh : store2.progress.filter (fun p => p.goalId = "gh") = [progHalf] := rfl
  have h1 : (GoalService.calculateCompletion 0 store2 GoalService.emptyCache "gn").1 = -1 := by
    have e1 : GoalService.calculateCompletion 0 store2 GoalService.emptyCache "gn"
        = GoalService.calculateCompletionUncached 0 store2 GoalService.emptyCache "gn" := rfl
    rw [e1]
    simp only [GoalService.calculateCompletionUncached, en, fn]
    norm_num [GoalService.completionOfRecords, goalNeg, progNeg, GoalService.jsMin]
  have h2 : (GoalService.calculateCompletion 0 store2 GoalService.emptyCache "gh").1 = 1/2 := by
    have e1 : GoalService.calculateCompletion 0 store2 GoalService.emptyCache "gh"
        = GoalService.calculateCompletionUncached 0 store2 GoalService.emptyCache "gh" := rfl
    rw [e1]
    simp only [GoalService.calculateCompletionUncached, eh, fh]
    norm_num [GoalService.completionOfRecords, goalHalf, progHalf, GoalService.jsMin,
      GoalService.jsOrOne]
  refine ⟨h1, ?_, h2, ?_⟩
  · rw [h1]
    norm_num
  · norm_num [GoalService.jsMin, GoalService.jsMax, goalHalf]

/-- C2 (amended): for a cache miss, `calculateCompletion(goalId)` returns
0 when the goal is absent or has no progress records; for a `count` or
`quantity` goal it returns `min(sum of values / targetValue, 1)` — the
result is capped at 1 but not raised to 0; for a `composite` goal it
returns `min(min(recordCount / targetValue, 1), min(sum(duration||0) /
(timeRequirement || 1), 1))`, where a missing or zero time requirement
falls back to 1. -/
theorem C2_completion_formula_amended :
    ∀ (s : Store) (cache : GoalService.CompletionCache) (now : ℕ) (goalId : String),
      cache goalId = Option.none →
      ((s.goals.find? (fun g => g.id = goalId) = Option.none →
        (GoalService.calculateCompletion now s cache goalId).1 = 0) ∧
       (∀ goal, s.goals.find? (fun g => g.id = goalId) = Option.some goal →
        s.progress.filter (fun p => p.goalId = goalId) = [] →
        (GoalService.calculateCompletion now s cache goalId).1 = 0) ∧
       (∀ goal, s.goals.find? (fun g => g.id = goalId) = Option.some goal →
        0 < goal.targetValue →
        s.progress.filter (fun p => p.goalId = goalId) ≠ [] →
        ((goal.type = GoalType.count ∨ goal.type = GoalType.quantity →
          (GoalService.calculateCompletion now s cache goalId).1
            = GoalService.jsMin (((s.progress.filter (fun p => p.goalId = goalId)).map
                Progress.value).sum / goal.targetValue) 1) ∧
         (goal.type = GoalType.composite →
          (GoalService.calculateCompletion now s cache goalId).1
            = GoalService.jsMin
                (GoalService.jsMin (((s.progress.filter (fun p => p.goalId = goalId)).length : ℚ)
                    / goal.targetValue) 1)
                (GoalService.jsMin (((s.progress.filter (fun p => p.goalId = goalId)).map (fun r =>
                    match r.duration with
                    | Option.some d => d
                    | Option.none => 0)).sum / GoalService.jsOrOne goal.timeRequirement)
                  1))))) := by
  intro s cache now goalId hmiss
  have hstep : GoalService.calculateCompletion now s cache goalId
      = GoalService.calculateCompletionUncached now s cache goalId := by
    simp only [GoalService.calculateCompletion, hmiss]
  refine ⟨?_, ?_, ?_⟩
  · intro hnone
    rw [hstep]
    simp only [GoalService.calculateCompletionUncached, hnone]
  · intro goal hgoal hempty
    rw [hstep]
    simp only [GoalService.calculateCompletionUncached, hgoal, hempty, List.isEmpty_nil,
      if_true]
  · intro goal hgoal htv hne
    have hie : (s.progress.filter (fun p => p.goalId = goalId)).isEmpty = false := by
      cases hr : s.progress.filter (fun p => p.goalId = goalId) with
      | nil => exact absurd hr hne
      | cons a l => rfl
    have hval : (GoalService.calculateCompletion now s cache goalId).1
        = GoalService.completionOfRecords goal (s.progress.filter (fun p => p.goalId = goalId)) := by
      rw [hstep]
      simp only [GoalService.calculateCompletionUncached, hgoal, hie, Bool.false_eq_true,
        if_false]
    constructor
    · intro hty
      rcases hty with hty | hty <;>
        rw [hval] <;> simp only [GoalService.completionOfRecords, hty]
    · intro hty
      rw [hval]
      simp only [GoalService.completionOfRecords, hty]

/-- C2 witness: the amended formula evaluated at the concrete store — a
dangling goal id and a goal without records give 0; the count goal and
the composite goal give the code's formulas. -/
theorem C2_completion_formula_amended_witness :
    (GoalService.calculateCompletion 0 store2 GoalService.emptyCache "zz").1 = 0 ∧
    (GoalService.calculateCompletion 0 store2 GoalService.emptyCache "gl").1 = 0 ∧
    (GoalService.calculateCompletion 0 store2 GoalService.emptyCache "gn").1
      = GoalService.jsMin (((store2.progress.filter (fun p => p.goalId = "gn")).map
          Progress.value).sum / goalNeg.targetValue) 1 ∧
    (GoalService.calculateCompletion 0 store2 GoalService.emptyCache "gh").1
      = GoalService.jsMin
          (GoalService.jsMin (((store2.progress.filter (fun p => p.goalId = "gh")).length : ℚ)
              / goalHalf.targetValue) 1)
          (GoalService.jsMin (((store2.progress.filter (fun p => p.goalId = "gh")).map (fun r =>
              match r.duration with
              | Option.some d => d
              | Option.none => 0)).sum / GoalService.jsOrOne goalHalf.timeRequirement) 1) := by
  refine ⟨?_, ?_, ?_, ?_⟩
  · exact (C2_completion_formula_amended store2 GoalService.emptyCache 0 "zz" rfl).1 rfl
  · exact (C2_completion_formula_amended store2 GoalService.emptyCache 0 "gl" rfl).2.1
      goalLonely rfl rfl
  · exact ((C2_completion_formula_amended store2 GoalService.emptyCache 0 "gn" rfl).2.2
      goalNeg rfl (by norm_num [goalNeg]) (by decide)).1 (Or.inl rfl)
  · exact ((C2_completion_formula_amended store2 GoalService.emptyCache 0 "gh" rfl).2.2
      goalHalf rfl (by norm_num [goalHalf]) (by decide)).2 rfl

/-- Helper: the cache-hit branch of `calculateCompletion`. -/
theorem calculateCompletion_cache_hit (s : Store) (cache : GoalService.CompletionCache)
    (now : ℕ) (goalId : String) (e : GoalService.CacheEntry)
    (he : cache goalId = Option.some e)
    (httl : now - e.timestamp < GoalService.CACHE_TTL) :
    GoalService.calculateCompletion now s cache goalId = (e.value, 0, cache) := by
  simp only [GoalService.calculateCompletion, he, if_pos httl]

/-- Helper: the cache-miss branch of `calculateCompletion` for a live
goal with at least one progress record. -/
theorem calculateCompletion_cache_miss (s : Store) (cache : GoalService.CompletionCache)
    (now : ℕ) (goalId : String) (goal : Goal)
    (hm : cache goalId = Option.none)
    (hgoal : s.goals.find? (fun g => g.id = goalId) = Option.some goal)
    (hie : (s.progress.filter (fun p => p.goalId = goalId)).isEmpty = false) :
    GoalService.calculateCompletion now s cache goalId
      = (GoalService.completionOfRecords goal (s.progress.filter (fun p => p.goalId = goalId)),
         2,
         fun x => if x = goalId then
           Option.some ⟨GoalService.completionOfRecords goal
             (s.progress.filter (fun p => p.goalId = goalId)), now⟩
         else cache x) := by
  simp only [GoalService.calculateCompletion, hm,
    GoalService.calculateCompletionUncached, hgoal, hie, Bool.false_eq_true, if_false]

/-- C7: a call inside the TTL window returns the cached value with zero
store reads and an unchanged cache; a first (uncached) call reads the
goal and its progress set (two reads) and caches the value it computed,
a second call within the TTL returns exactly that value with zero reads,
and after `clearCompletionCache(goalId)` a third call re-reads the store
(two reads) and recomputes the same value from the unchanged store. -/
theorem C7_completion_cache_roundtrip :
    (∀ (s : Store) (cache : GoalService.CompletionCache) (now : ℕ) (goalId : String)
        (e : GoalService.CacheEntry),
      cache goalId = Option.some e →
      now - e.timestamp < GoalService.CACHE_TTL →
      GoalService.calculateCompletion now s cache goalId = (e.value, 0, cache)) ∧
    (∀ (s : Store) (c0 : GoalService.CompletionCache) (t1 t2 t3 : ℕ)
        (goalId : String) (goal : Goal),
      c0 goalId = Option.none →
      s.goals.find? (fun g => g.id = goalId) = Option.some goal →
      s.progress.filter (fun p => p.goalId = goalId) ≠ [] →
      t1 ≤ t2 → t2 - t1 < GoalService.CACHE_TTL →
      (GoalService.calculateCompletion t1 s c0 goalId).2.1 = 2 ∧
      (GoalService.calculateCompletion t2 s
          (GoalService.calculateCompletion t1 s c0 goalId).2.2 goalId).1
        = (GoalService.calculateCompletion t1 s c0 goalId).1 ∧
      (GoalService.calculateCompletion t2 s
          (GoalService.calculateCompletion t1 s c0 goalId).2.2 goalId).2.1 = 0 ∧
      (GoalService.calculateCompletion t2 s
          (GoalService.calculateCompletion t1 s c0 goalId).2.2 goalId).2.2
        = (GoalService.calculateCompletion t1 s c0 goalId).2.2 ∧
      (GoalService.calculateCompletion t3 s
          (GoalService.clearCompletionCache (Option.some goalId)
            (GoalService.calculateCompletion t2 s
              (GoalService.calculateCompletion t1 s c0 goalId).2.2 goalId).2.2) goalId).2.1 = 2 ∧
      (GoalService.calculateCompletion t3 s
          (GoalService.clearCompletionCache (Option.some goalId)
            (GoalService.calculateCompletion t2 s
              (GoalService.calculateCompletion t1 s c0 goalId).2.2 goalId).2.2) goalId).1
        = (GoalService.calculateCompletion t1 s c0 goalId).1) := by
  constructor
  · intro s cache now goalId e he httl
    exact calculateCompletion_cache_hit s cache now goalId e he httl
  · intro s c0 t1 t2 t3 goalId goal hc0 hgoal hne hle httl
    have hie : (s.progress.filter (fun p => p.goalId = goalId)).isEmpty = false := by
      cases hr : s.progress.filter (fun p => p.goalId = goalId) with
      | nil => exact absurd hr hne
      | cons a l => rfl
    have h1 := calculateCompletion_cache_miss s c0 t1 goalId goal hc0 hgoal hie
    have hcache1 : (GoalService.calculateCompletion t1 s c0 goalId).2.2 goalId
        = Option.some ⟨GoalService.completionOfRecords goal
            (s.progress.filter (fun p => p.goalId = goalId)), t1⟩ := by
      rw [h1]
      simp
    have h2 := calculateCompletion_cache_hit s
      (GoalService.calculateCompletion t1 s c0 goalId).2.2 t2 goalId
      ⟨GoalService.completionOfRecords goal
        (s.progress.filter (fun p => p.goalId = goalId)), t1⟩ hcache1 httl
    have hclear : (GoalService.clearCompletionCache (Option.some goalId)
        (GoalService.calculateCompletion t2 s
          (GoalService.calculateCompletion t1 s c0 goalId).2.2 goalId).2.2) goalId
        = Option.none := by
      simp [GoalService.clearCompletionCache]
    have h3 := calculateCompletion_cache_miss s
      (GoalService.clearCompletionCache (Option.some goalId)
        (GoalService.calculateCompletion t2 s
          (GoalService.calculateCompletion t1 s c0 goalId).2.2 goalId).2.2)
      t3 goalId goal hclear hgoal hie
    refine ⟨by rw [h1], by rw [h2, h1], by rw [h2], by rw [h2], by rw [h3], by rw [h3, h1]⟩

/-- C7 witness: the concrete store with goal `g1` and one progress
record, called at t=1000, t=2000 and t=100000, plus a direct cache hit at
the fixed cache. -/
theorem C7_completion_cache_roundtrip_witness :
    GoalService.calculateCompletion 600 store1 cacheFix "g1" = (7, 0, cacheFix) ∧
    (GoalService.calculateCompletion 1000 store1 GoalService.emptyCache "g1").2.1 = 2 ∧
    (GoalService.calculateCompletion 2000 store1
        (GoalService.calculateCompletion 1000 store1 GoalService.emptyCache "g1").2.2 "g1").1
      = (GoalService.calculateCompletion 1000 store1 GoalService.emptyCache "g1").1 ∧
    (GoalService.calculateCompletion 2000 store1
        (GoalService.calculateCompletion 1000 store1 GoalService.emptyCache "g1").2.2 "g1").2.1 = 0 ∧
    (GoalService.calculateCompletion 2000 store1
        (GoalService.calculateCompletion 1000 store1 GoalService.emptyCache "g1").2.2 "g1").2.2
      = (GoalService.calculateCompletion 1000 store1 GoalService.emptyCache "g1").2.2 ∧
    (GoalService.calculateCompletion 100000 store1
        (GoalService.clearCompletionCache (Option.some "g1")
          (GoalService.calculateCompletion 2000 store1
            (GoalService.calculateCompletion 1000 store1 GoalService.emptyCache "g1").2.2 "g1").2.2) "g1").2.1 = 2 ∧
    (GoalService.calculateCompletion 100000 store1
        (GoalService.clearCompletionCache (Option.some "g1")
          (GoalService.calculateCompletion 2000 store1
            (GoalService.calculateCompletion 1000 store1 GoalService.emptyCache "g1").2.2 "g1").2.2) "g1").1
      = (GoalService.calculateCompletion 1000 store1 GoalService.emptyCache "g1").1 := by
  have hhit := C7_completion_cache_roundtrip.1 store1 cacheFix 600 "g1" ⟨7, 500⟩ rfl (by decide)
  have hrest := C7_completion_cache_roundtrip.2 store1 GoalService.emptyCache 1000 2000 100000
    "g1" goal1 rfl rfl (by decide) (by decide) (by decide)
  exact ⟨hhit, hrest.1, hrest.2.1, hrest.2.2.1, hrest.2.2.2.1, hrest.2.2.2.2.1, hrest.2.2.2.2.2⟩

/-- Helper: when a transaction wrapped in the uniform error handler
fails, the store reverts to its state at entry. -/
theorem executeDbOperation_dbTransaction_rollback (body : Casc Unit) (msg : String)
    (st : CascState) (e : String)
    (h : ((executeDbOperation (dbTransaction body) msg) st).1 = Except.error e) :
    ((executeDbOperation (dbTransaction body) msg) st).2.store = st.store := by
  rcases hb : body st with ⟨r, st2⟩
  cases r with
  | ok a =>
      have hok : ((executeDbOperation (dbTransaction body) msg) st).1 = Except.ok a := by
        simp only [executeDbOperation, dbTransaction, hb]
      rw [hok] at h
      exact absurd h (by simp)
  | error e2 =>
      simp only [executeDbOperation, dbTransaction, hb]

/-- C1: every cascading delete (`deleteWithRelated` on a hobby, category
or goal) runs inside one transaction, so whenever any injected step
failure makes the operation throw, the store afterwards equals the store
before — no row of any table in the cascade is deleted. -/
theorem C1_cascade_atomic_rollback :
    ∀ (failAt : Option ℕ) (now : ℕ) (s : Store) (id : String),
      (∀ e, (runCasc (HobbyService.deleteWithRelated id) failAt now s).1 = Except.error e →
        (runCasc (HobbyService.deleteWithRelated id) failAt now s).2.1 = s) ∧
      (∀ e, (runCasc (CategoryService.deleteWithRelated id) failAt now s).1 = Except.error e →
        (runCasc (CategoryService.deleteWithRelated id) failAt now s).2.1 = s) ∧
      (∀ e, (runCasc (GoalService.deleteWithRelated id) failAt now s).1 = Except.error e →
        (runCasc (GoalService.deleteWithRelated id) failAt now s).2.1 = s) := by
  intro failAt now s id
  refine ⟨fun e h => ?_, fun e h => ?_, fun e h => ?_⟩ <;>
    exact executeDbOperation_dbTransaction_rollback _ _ _ e h

/-- C1 witness: with a failure injected at the very first storage step,
each cascade on the concrete store throws and leaves the store intact. -/
theorem C1_cascade_atomic_rollback_witness :
    (runCasc (HobbyService.deleteWithRelated "h1") (Option.some 0) 5 store1).2.1 = store1 ∧
    (runCasc (CategoryService.deleteWithRelated "c1") (Option.some 0) 5 store1).2.1 = store1 ∧
    (runCasc (GoalService.deleteWithRelated "g1") (Option.some 0) 5 store1).2.1 = store1 :=
  ⟨(C1_cascade_atomic_rollback (Option.some 0) 5 store1 "h1").1
      ("刪除興趣項目 ID 為 h1 及其相關目標和進度記錄失敗: injected failure") rfl,
   (C1_cascade_atomic_rollback (Option.some 0) 5 store1 "c1").2.1
      ("刪除分類 ID 為 c1 及其相關聯的興趣項目、目標和進度記錄失敗: injected failure") rfl,
   (C1_cascade_atomic_rollback (Option.some 0) 5 store1 "g1").2.2
      ("刪除目標 ID 為 g1 及其相關進度記錄失敗: injected failure") rfl⟩

/-- Helper: applied form of the monadic bind on storage computations. -/
theorem Casc_bind_apply {α β : Type} (x : Casc α) (f : α → Casc β) (st : CascState) :
    (x >>= f) st = match x st with
      | (Except.ok a, st') => f a st'
      | (Except.error e, st') => (Except.error e, st') := rfl

/-- Helper: applied form of the monadic pure on storage computations. -/
theorem Casc_pure_apply {α : Type} (a : α) (st : CascState) :
    (pure a : Casc α) st = (Except.ok a, st) := rfl

/-- Helper: rewriting rows at an id and then dropping the rows with that
id is the same as dropping them directly. -/
theorem filter_map_write_hobby (l : List Hobby) (id : String) (g : Hobby → Hobby)
    (hg : ∀ r, (g r).id = r.id) :
    (l.map (fun r => if r.id = id then g r else r)).filter (fun r => ¬ r.id = id)
      = l.filter (fun r => ¬ r.id = id) := by
  induction l with
  | nil => rfl
  | cons a as ih =>
      by_cases ha : a.id = id
      · have hga : (g a).id = id := (hg a).trans ha
        simp only [List.map_cons, List.filter_cons, if_pos ha]
        simp [hga, ha]
        simpa using ih
      · simp only [List.map_cons, List.filter_cons, if_neg ha]
        simp [ha]
        simpa using ih

/-- Helper: a `try`/`catch` whose handler returns a plain result never
propagates an error. -/
theorem tsTryCatch_pure_handler_ok {α : Type} (body : Casc α) (f : String → α)
    (st : CascState) :
    ∃ r, ((tsTryCatch body (fun e => pure (f e))) st).1 = Except.ok r := by
  unfold tsTryCatch
  rcases hb : body st with ⟨r, st2⟩
  cases r with
  | ok a => exact ⟨a, rfl⟩
  | error e => exact ⟨f e, rfl⟩

/-- Helper: `safeDelete` on a hobby with related goals refuses with a
confirm action and leaves the state untouched. -/
theorem hobby_safeDelete_blocked (now : ℕ) (s : Store) (id : String)
    (h : 0 < s.goals.countP (fun g => g.hobbyId = id)) :
    runCasc (HobbyService.safeDelete id) Option.none now s
      = (Except.ok { success := false,
                     message := Option.some "刪除此興趣項目將同時刪除所有相關的目標及進度記錄。確定要繼續嗎？",
                     confirmAction := Option.some "deleteWithRelated" }, s, []) := by
  have hex : ∃ a ∈ s.goals, a.hobbyId = id := by
    simpa [List.countP_pos_iff] using h
  simp only [runCasc, HobbyService.safeDelete, tsTryCatch, HobbyService.hasRelatedGoals,
    Casc_bind_apply, Casc_pure_apply, Casc.step, Casc.getStore]
  simp [hex, Casc_pure_apply]

/-- Helper: `safeDelete` on a hobby without related goals marks and
removes exactly the row with that id. -/
theorem hobby_safeDelete_clean (now : ℕ) (s : Store) (id : String)
    (h0 : s.goals.countP (fun g => g.hobbyId = id) = 0) :
    (runCasc (HobbyService.safeDelete id) Option.none now s).1
        = Except.ok { success := true } ∧
    (runCasc (HobbyService.safeDelete id) Option.none now s).2.1
        = { s with hobbies := s.hobbies.filter (fun r => ¬ r.id = id) } := by
  have hnex : ¬ ∃ a ∈ s.goals, a.hobbyId = id := by
    intro hcontra
    obtain ⟨a, ha, hp⟩ := hcontra
    exact List.countP_eq_zero.mp h0 a ha (by simpa using hp)
  rcases hf : s.findSync TableName.hobbies id with _ | sf
  · simp [runCasc, HobbyService.safeDelete, tsTryCatch, HobbyService.hasRelatedGoals,
      HobbyService.delete, HobbyService.baseDelete, executeDbOperation, mMarkForSync,
      SyncService.markForSync, SyncService.updateEntitySyncStatus, hf, delHobbyKey,
      mNotifyChange, Casc_bind_apply, Casc_pure_apply, Casc.step, Casc.getStore,
      Casc.setStore, Casc.emitAll, hnex]
  · simp [runCasc, HobbyService.safeDelete, tsTryCatch, HobbyService.hasRelatedGoals,
      HobbyService.delete, HobbyService.baseDelete, executeDbOperation, mMarkForSync,
      SyncService.markForSync, SyncService.updateEntitySyncStatus, hf, delHobbyKey,
      mNotifyChange, Casc_bind_apply, Casc_pure_apply, Casc.step, Casc.getStore,
      Casc.setStore, Casc.emitAll, Store.writeSync, hnex]
    set sfNew : SyncFields := SyncService.mkSyncFields SyncStatus.pending { localUpdatedAt := Option.some now, pendingOperation := Option.some SyncOperationType.delete } now with hsf
    have hfm := filter_map_write_hobby s.hobbies id (fun r => { r with sync := sfNew }) (fun r => rfl)
    simpa using hfm

/-- Helper: `safeDelete` on a goal with related progress refuses with a
confirm action and leaves the state untouched. -/
theorem goal_safeDelete_blocked (now : ℕ) (s : Store) (id : String)
    (h : 0 < s.progress.countP (fun p => p.goalId = id)) :
    runCasc (GoalService.safeDelete id) Option.none now s
      = (Except.ok { success := false,
                     message := Option.some "刪除此目標將同時刪除所有相關的進度記錄。確定要繼續嗎？",
                     confirmAction := Option.some "deleteWithRelated" }, s, []) := by
  have hex : ∃ a ∈ s.progress, a.goalId = id := by
    simpa [List.countP_pos_iff] using h
  simp only [runCasc, GoalService.safeDelete, tsTryCatch, GoalService.hasRelatedProgress,
    Casc_bind_apply, Casc_pure_apply, Casc.step, Casc.getStore]
  simp [hex, Casc_pure_apply]

/-- Helper: `safeDelete` on a goal without related progress removes
exactly the row with that id. -/
theorem goal_safeDelete_clean (now : ℕ) (s : Store) (id : String)
    (h0 : s.progress.countP (fun p => p.goalId = id) = 0) :
    (runCasc (GoalService.safeDelete id) Option.none now s).1
        = Except.ok { success := true } ∧
    (runCasc (GoalService.safeDelete id) Option.none now s).2.1
        = { s with goals := s.goals.filter (fun g => ¬ g.id = id) } := by
  have hnex : ¬ ∃ a ∈ s.progress, a.goalId = id := by
    intro hcontra
    obtain ⟨a, ha, hp⟩ := hcontra
    exact List.countP_eq_zero.mp h0 a ha (by simpa using hp)
  simp [runCasc, GoalService.safeDelete, tsTryCatch, GoalService.hasRelatedProgress,
    GoalService.baseDelete, executeDbOperation, delGoalKey, Casc_bind_apply,
    Casc_pure_apply, Casc.step, Casc.getStore, Casc.setStore, Casc.emitAll, hnex]

/-- Helper: a list with exactly one element satisfying a predicate loses
exactly one element when those elements are filtered out. -/
theorem length_filter_not_one {α : Type} (l : List α) (q : α → Prop) [DecidablePred q]
    (h : l.countP (fun a => q a) = 1) :
    (l.filter (fun a => ¬ q a)).length + 1 = l.length := by
  have h1 := List.length_eq_countP_add_countP (l := l) (p := fun a => decide (q a))
  have h3 : (fun a => decide (¬ (decide (q a)) = true)) = (fun a => decide (¬ q a)) := by
    funext a
    by_cases hq : q a <;> simp [hq]
  rw [h3] at h1
  have h2 : (l.filter (fun a => decide (¬ q a))).length = l.countP (fun a => decide (¬ q a)) :=
    (List.countP_eq_length_filter _ _).symm
  omega

/-- Helper: a `try`/`catch` whose handler returns a plain result never
propagates an error, stated through the runner. -/
theorem tsTryCatch_pure_handler_runCasc_ok {α : Type} (body : Casc α) (f : String → α)
    (failAt : Option ℕ) (now : ℕ) (s : Store) :
    ∃ r, (runCasc (tsTryCatch body (fun e => pure (f e))) failAt now s).1 = Except.ok r :=
  tsTryCatch_pure_handler_ok body f _

/-- C3: `safeDelete(id)` refuses with `{success:false, message,
confirmAction:"deleteWithRelated"}` and mutates nothing when related
children exist; deletes exactly the one row and returns `{success:true}`
when none exist; and for every injected store failure still returns a
result object instead of throwing — shown for the hobby service (goals
as children) and the goal service (progress records as children). -/
theorem C3_safeDelete_contract :
    ∀ (now : ℕ) (s : Store) (id : String),
      (0 < s.goals.countP (fun g => g.hobbyId = id) →
        runCasc (HobbyService.safeDelete id) Option.none now s
          = (Except.ok { success := false,
                         message := Option.some "刪除此興趣項目將同時刪除所有相關的目標及進度記錄。確定要繼續嗎？",
                         confirmAction := Option.some "deleteWithRelated" }, s, [])) ∧
      (s.goals.countP (fun g => g.hobbyId = id) = 0 →
        (runCasc (HobbyService.safeDelete id) Option.none now s).1
            = Except.ok { success := true } ∧
        (runCasc (HobbyService.safeDelete id) Option.none now s).2.1
            = { s with hobbies := s.hobbies.filter (fun r => ¬ r.id = id) } ∧
        (s.hobbies.countP (fun r => r.id = id) = 1 →
          ((runCasc (HobbyService.safeDelete id) Option.none now s).2.1).hobbies.length + 1
            = s.hobbies.length)) ∧
      (∀ failAt, ∃ r, (runCasc (HobbyService.safeDelete id) failAt now s).1 = Except.ok r) ∧
      (0 < s.progress.countP (fun p => p.goalId = id) →
        runCasc (GoalService.safeDelete id) Option.none now s
          = (Except.ok { success := false,
                         message := Option.some "刪除此目標將同時刪除所有相關的進度記錄。確定要繼續嗎？",
                         confirmAction := Option.some "deleteWithRelated" }, s, [])) ∧
      (s.progress.countP (fun p => p.goalId = id) = 0 →
        (runCasc (GoalService.safeDelete id) Option.none now s).1
            = Except.ok { success := true } ∧
        (runCasc (GoalService.safeDelete id) Option.none now s).2.1
            = { s with goals := s.goals.filter (fun g => ¬ g.id = id) } ∧
        (s.goals.countP (fun g => g.id = id) = 1 →
          ((runCasc (GoalService.safeDelete id) Option.none now s).2.1).goals.length + 1
            = s.goals.length)) ∧
      (∀ failAt, ∃ r, (runCasc (GoalService.safeDelete id) failAt now s).1 = Except.ok r) := by
  intro now s id
  refine ⟨hobby_safeDelete_blocked now s id, ?_, ?_, goal_safeDelete_blocked now s id, ?_, ?_⟩
  · intro h0
    have hc := hobby_safeDelete_clean now s id h0
    refine ⟨hc.1, hc.2, fun h1 => ?_⟩
    rw [hc.2]
    exact length_filter_not_one s.hobbies (fun r => r.id = id) h1
  · intro failAt
    exact tsTryCatch_pure_handler_runCasc_ok _
      (fun e => ({ success := false, message := Option.some ("刪除失敗: " ++ e) } : SafeDeleteResult))
      failAt now s
  · intro h0
    have hc := goal_safeDelete_clean now s id h0
    refine ⟨hc.1, hc.2, fun h1 => ?_⟩
    rw [hc.2]
    exact length_filter_not_one s.goals (fun g => g.id = id) h1
  · intro failAt
    exact tsTryCatch_pure_handler_runCasc_ok _
      (fun e => ({ success := false, message := Option.some ("刪除失敗: " ++ e) } : SafeDeleteResult))
      failAt now s

/-- C3 witness: at the concrete stores — hobby `h1` with a goal is
blocked, hobby `h2` without goals is deleted as exactly one row, goal
`g1` with progress is blocked, goal `gl` without progress is deleted as
exactly one row, and with an injected failure both services still return
a result. -/
theorem C3_safeDelete_contract_witness :
    runCasc (HobbyService.safeDelete "h1") Option.none 5 store1
      = (Except.ok { success := false,
                     message := Option.some "刪除此興趣項目將同時刪除所有相關的目標及進度記錄。確定要繼續嗎？",
                     confirmAction := Option.some "deleteWithRelated" }, store1, []) ∧
    (runCasc (HobbyService.safeDelete "h2") Option.none 5 store3).1
      = Except.ok { success := true } ∧
    ((runCasc (HobbyService.safeDelete "h2") Option.none 5 store3).2.1).hobbies.length + 1
      = store3.hobbies.length ∧
    (∃ r, (runCasc (HobbyService.safeDelete "h1") (Option.some 0) 5 store1).1 = Except.ok r) ∧
    runCasc (GoalService.safeDelete "g1") Option.none 5 store1
      = (Except.ok { success := false,
                     message := Option.some "刪除此目標將同時刪除所有相關的進度記錄。確定要繼續嗎？",
                     confirmAction := Option.some "deleteWithRelated" }, store1, []) ∧
    (runCasc (GoalService.safeDelete "gl") Option.none 5 store3).1
      = Except.ok { success := true } ∧
    ((runCasc (GoalService.safeDelete "gl") Option.none 5 store3).2.1).goals.length + 1
      = store3.goals.length ∧
    (∃ r, (runCasc (GoalService.safeDelete "g1") (Option.some 0) 5 store1).1 = Except.ok r) :=
  ⟨(C3_safeDelete_contract 5 store1 "h1").1 (by decide),
   ((C3_safeDelete_contract 5 store3 "h2").2.1 (by decide)).1,
   ((C3_safeDelete_contract 5 store3 "h2").2.1 (by decide)).2.2 (by decide),
   (C3_safeDelete_contract 5 store1 "h1").2.2.1 (Option.some 0),
   (C3_safeDelete_contract 5 store1 "g1").2.2.2.1 (by decide),
   ((C3_safeDelete_contract 5 store3 "gl").2.2.2.2.1 (by decide)).1,
   ((C3_safeDelete_contract 5 store3 "gl").2.2.2.2.1 (by decide)).2.2 (by decide),
   (C3_safeDelete_contract 5 store1 "g1").2.2.2.2.2 (Option.some 0)⟩

/-- Helper: stamping a sync bundle on the rows with listed ids and then
dropping the rows of a goal drops the same rows, provided every listed
id belongs to that goal. -/
theorem filter_map_mem_progress (l : List Progress) (ids : List String) (gid : String)
    (sf : SyncFields) (h : ∀ r ∈ l, r.id ∈ ids → r.goalId = gid) :
    (l.map (fun r => if r.id ∈ ids then { r with sync := sf } else r)).filter
      (fun r => ¬ r.goalId = gid)
      = l.filter (fun r => ¬ r.goalId = gid) := by
  induction l with
  | nil => rfl
  | cons a as ih =>
      have hrest : ∀ r ∈ as, r.id ∈ ids → r.goalId = gid := fun r hr => h r (List.mem_cons_of_mem a hr)
      by_cases hm : a.id ∈ ids
      · have hg : a.goalId = gid := h a (List.mem_cons_self a as) hm
        simp only [List.map_cons, if_pos hm, List.filter_cons]
        simp [hg]
        simpa using ih hrest
      · simp only [List.map_cons, if_neg hm, List.filter_cons]
        by_cases hg : a.goalId = gid <;> simp [hg] <;> simpa using ih hrest

/-- Helper: stamping a sync bundle on the rows with listed ids and then
dropping the rows of a hobby drops the same rows, provided every listed
id belongs to a goal of that hobby. -/
theorem filter_map_mem_goals (l : List Goal) (ids : List String) (hid : String)
    (sf : SyncFields) (h : ∀ r ∈ l, r.id ∈ ids → r.hobbyId = hid) :
    (l.map (fun r => if r.id ∈ ids then { r with sync := sf } else r)).filter
      (fun r => ¬ r.hobbyId = hid)
      = l.filter (fun r => ¬ r.hobbyId = hid) := by
  induction l with
  | nil => rfl
  | cons a as ih =>
      have hrest : ∀ r ∈ as, r.id ∈ ids → r.hobbyId = hid := fun r hr => h r (List.mem_cons_of_mem a hr)
      by_cases hm : a.id ∈ ids
      · have hg : a.hobbyId = hid := h a (List.mem_cons_self a as) hm
        simp only [List.map_cons, if_pos hm, List.filter_cons]
        simp [hg]
        simpa using ih hrest
      · simp only [List.map_cons, if_neg hm, List.filter_cons]
        by_cases hg : a.hobbyId = hid <;> simp [hg] <;> simpa using ih hrest

/-- Helper: marking an existing row pending-delete succeeds, rewrites the
row's sync fields, and appends one sync write and only sync-status events
(no deletes, no deletion events) to the trace. -/
theorem mMarkForSync_run (tbl : TableName) (id : String) (st : CascState)
    (hfail : st.failAt = Option.none)
    (hsome : (st.store.findSync tbl id).isSome = true) :
    ((mMarkForSync tbl id SyncOperationType.delete) st).1 = Except.ok () ∧
    ((mMarkForSync tbl id SyncOperationType.delete) st).2.store
        = st.store.writeSync tbl id (pendingDeleteSF st.now) ∧
    ((mMarkForSync tbl id SyncOperationType.delete) st).2.now = st.now ∧
    ((mMarkForSync tbl id SyncOperationType.delete) st).2.failAt = Option.none ∧
    ((mMarkForSync tbl id SyncOperationType.delete) st).2.trace.filter isDeleteEv
        = st.trace.filter isDeleteEv ∧
    ((mMarkForSync tbl id SyncOperationType.delete) st).2.trace.filter isDeletionPubEv
        = st.trace.filter isDeletionPubEv ∧
    ((mMarkForSync tbl id SyncOperationType.delete) st).2.trace.filter isSyncWriteEv
        = st.trace.filter isSyncWriteEv ++ [TraceEv.syncWrite tbl id (pendingDeleteSF st.now)] := by
  obtain ⟨sf0, hf⟩ := Option.isSome_iff_exists.mp hsome
  cases tbl <;>
    simp [mMarkForSync, Casc_bind_apply, Casc.step, hfail, SyncService.markForSync,
      SyncService.updateEntitySyncStatus, hf, SyncService.notifySyncStatusChanged,
      SyncService.updateGlobalSyncCounts, pendingDeleteSF, List.filter_append,
      isDeleteEv, isDeletionPubEv, isSyncWriteEv, SyncService.ENTITY_SYNC_STATUS_CHANGED,
      SyncService.GLOBAL_SYNC_STATUS_CHANGED, TableName.str]

/-- Helper: stamping one id and then a list of ids equals stamping the
whole list at once, for progress rows. -/
theorem map_write_compose_progress (l : List Progress) (pid : String)
    (restIds : List String) (sf : SyncFields) :
    (l.map (fun r => if r.id = pid then { r with sync := sf } else r)).map
      (fun r => if r.id ∈ restIds then { r with sync := sf } else r)
      = l.map (fun r => if r.id ∈ pid :: restIds then { r with sync := sf } else r) := by
  rw [List.map_map]
  apply List.map_congr_left
  intro r _
  by_cases h1 : r.id = pid
  · by_cases h2 : pid ∈ restIds <;> simp [Function.comp, h1, h2]
  · by_cases h2 : r.id ∈ restIds <;> simp [Function.comp, h1, h2]

/-- Helper: the progress-marking loop stamps every listed record
pending-delete: it succeeds, leaves all tables but progress untouched,
rewrites exactly the listed rows' sync fields, and appends one sync write
per record to the trace, in order. -/
theorem markProgressLoop_run (recs : List Progress) (st : CascState)
    (hfail : st.failAt = Option.none)
    (hex : ∀ p ∈ recs, ∃ q ∈ st.store.progress, q.id = p.id) :
    ∃ st', HobbyService.markProgressLoop recs st = (Except.ok (), st') ∧
      st'.store.categories = st.store.categories ∧
      st'.store.hobbies = st.store.hobbies ∧
      st'.store.goals = st.store.goals ∧
      st'.store.progress = st.store.progress.map (fun r =>
        if r.id ∈ recs.map Progress.id then { r with sync := pendingDeleteSF st.now } else r) ∧
      st'.now = st.now ∧ st'.failAt = Option.none ∧
      st'.trace.filter isDeleteEv = st.trace.filter isDeleteEv ∧
      st'.trace.filter isDeletionPubEv = st.trace.filter isDeletionPubEv ∧
      st'.trace.filter isSyncWriteEv = st.trace.filter isSyncWriteEv
        ++ recs.map (fun p => TraceEv.syncWrite TableName.progress p.id (pendingDeleteSF st.now)) := by
  induction recs generalizing st with
  | nil => exact ⟨st, rfl, rfl, rfl, rfl, by simp, rfl, hfail, rfl, rfl, by simp⟩
  | cons p rest ih =>
      have hsome : (st.store.findSync TableName.progress p.id).isSome = true := by
        obtain ⟨q, hq, hqid⟩ := hex p (List.mem_cons_self p rest)
        simp only [Store.findSync]
        have h2 : (st.store.progress.find? (fun r => decide (r.id = p.id))).isSome = true := by
          rw [List.find?_isSome]
          exact ⟨q, hq, by simp [hqid]⟩
        obtain ⟨v, hv⟩ := Option.isSome_iff_exists.mp h2
        simp [hv]
      obtain ⟨hm1, hm2, hm3, hm4, hm5, hm6, hm7⟩ :=
        mMarkForSync_run TableName.progress p.id st hfail hsome
      have hpair : (mMarkForSync TableName.progress p.id SyncOperationType.delete) st
          = (Except.ok (),
             ((mMarkForSync TableName.progress p.id SyncOperationType.delete) st).2) := by
        rw [← hm1]
      have hrun : HobbyService.markProgressLoop (p :: rest) st
          = HobbyService.markProgressLoop rest
              ((mMarkForSync TableName.progress p.id SyncOperationType.delete) st).2 := by
        rw [show HobbyService.markProgressLoop (p :: rest)
            = (mMarkForSync TableName.progress p.id SyncOperationType.delete >>= fun _ =>
                HobbyService.markProgressLoop rest) from rfl,
          Casc_bind_apply, hpair]
      have hexr : ∀ q2 ∈ rest,
          ∃ q' ∈ ((mMarkForSync TableName.progress p.id SyncOperationType.delete) st).2.store.progress,
            q'.id = q2.id := by
        intro q2 hq2
        obtain ⟨q, hq, hqid⟩ := hex q2 (List.mem_cons_of_mem p hq2)
        rw [hm2]
        refine ⟨if q.id = p.id then { q with sync := pendingDeleteSF st.now } else q, ?_, ?_⟩
        · simp only [Store.writeSync]
          exact List.mem_map_of_mem _ hq
        · by_cases h : q.id = p.id <;> simpa [h] using hqid
      obtain ⟨st2, hloop, hc1, hc2, hc3, hc4, hc5, hc6, hc7, hc8, hc9⟩ :=
        ih ((mMarkForSync TableName.progress p.id SyncOperationType.delete) st).2 hm4 hexr
      refine ⟨st2, by rw [hrun, hloop], ?_, ?_, ?_, ?_, by rw [hc5, hm3], hc6, ?_, ?_, ?_⟩
      · rw [hc1, hm2]
        simp [Store.writeSync]
      · rw [hc2, hm2]
        simp [Store.writeSync]
      · rw [hc3, hm2]
        simp [Store.writeSync]
      · rw [hc4, hm2, hm3]
        simp only [Store.writeSync]
        rw [map_write_compose_progress]
        rfl
      · rw [hc7, hm5]
      · rw [hc8, hm6]
      · rw [hc9, hm7, hm3]
        simp [List.map_cons]

/-- Helper: applied form of the progress query when no failure is injected. -/
theorem qProgressByGoalId_apply (gid : String) (st : CascState)
    (hfail : st.failAt = Option.none) :
    qProgressByGoalId gid st
      = (Except.ok (st.store.progress.filter (fun p => p.goalId = gid)),
         { st with tick := st.tick + 1 }) := by
  simp [qProgressByGoalId, Casc_bind_apply, Casc.step, hfail, Casc.getStore, Casc_pure_apply]

/-- Helper: applied form of the goal query when no failure is injected. -/
theorem qGoalsByHobbyId_apply (hid : String) (st : CascState)
    (hfail : st.failAt = Option.none) :
    qGoalsByHobbyId hid st
      = (Except.ok (st.store.goals.filter (fun g => g.hobbyId = hid)),
         { st with tick := st.tick + 1 }) := by
  simp [qGoalsByHobbyId, Casc_bind_apply, Casc.step, hfail, Casc.getStore, Casc_pure_apply]

/-- Helper: applied form of the hobby query when no failure is injected. -/
theorem qHobbiesByCategoryId_apply (cid : String) (st : CascState)
    (hfail : st.failAt = Option.none) :
    qHobbiesByCategoryId cid st
      = (Except.ok (st.store.hobbies.filter (fun h => h.categoryId = cid)),
         { st with tick := st.tick + 1 }) := by
  simp [qHobbiesByCategoryId, Casc_bind_apply, Casc.step, hfail, Casc.getStore, Casc_pure_apply]

/-- Helper: applied form of the progress range delete when no failure is
injected. -/
theorem delProgressWhereGoalId_apply (gid : String) (st : CascState)
    (hfail : st.failAt = Option.none) :
    delProgressWhereGoalId gid st
      = (Except.ok (),
         { st with tick := st.tick + 1,
                   store := { st.store with
                     progress := st.store.progress.filter (fun p => ¬ p.goalId = gid) },
                   trace := st.trace ++ [TraceEv.delWhere TableName.progress "goalId" gid] }) := by
  simp [delProgressWhereGoalId, Casc_bind_apply, Casc.step, hfail, Casc.getStore,
    Casc.setStore, Casc.emitAll, Casc_pure_apply]

/-- Helper: applied form of the goal range delete when no failure is
injected. -/
theorem delGoalsWhereHobbyId_apply (hid : String) (st : CascState)
    (hfail : st.failAt = Option.none) :
    delGoalsWhereHobbyId hid st
      = (Except.ok (),
         { st with tick := st.tick + 1,
                   store := { st.store with
                     goals := st.store.goals.filter (fun g => ¬ g.hobbyId = hid) },
                   trace := st.trace ++ [TraceEv.delWhere TableName.goals "hobbyId" hid] }) := by
  simp [delGoalsWhereHobbyId, Casc_bind_apply, Casc.step, hfail, Casc.getStore,
    Casc.setStore, Casc.emitAll, Casc_pure_apply]

/-- Helper: applied form of the hobby range delete when no failure is
injected. -/
theorem delHobbiesWhereCategoryId_apply (cid : String) (st : CascState)
    (hfail : st.failAt = Option.none) :
    delHobbiesWhereCategoryId cid st
      = (Except.ok (),
         { st with tick := st.tick + 1,
                   store := { st.store with
                     hobbies := st.store.hobbies.filter (fun h => ¬ h.categoryId = cid) },
                   trace := st.trace ++ [TraceEv.delWhere TableName.hobbies "categoryId" cid] }) := by
  simp [delHobbiesWhereCategoryId, Casc_bind_apply, Casc.step, hfail, Casc.getStore,
    Casc.setStore, Casc.emitAll, Casc_pure_apply]

/-- Helper: applied form of the primary-key hobby delete when no failure
is injected. -/
theorem delHobbyKey_apply (id : String) (st : CascState)
    (hfail : st.failAt = Option.none) :
    delHobbyKey id st
      = (Except.ok (),
         { st with tick := st.tick + 1,
                   store := { st.store with
                     hobbies := st.store.hobbies.filter (fun h => ¬ h.id = id) },
                   trace := st.trace ++ [TraceEv.delKey TableName.hobbies id] }) := by
  simp [delHobbyKey, Casc_bind_apply, Casc.step, hfail, Casc.getStore,
    Casc.setStore, Casc.emitAll, Casc_pure_apply]

/-- Helper: applied form of the primary-key category delete when no
failure is injected. -/
theorem delCategoryKey_apply (id : String) (st : CascState)
    (hfail : st.failAt = Option.none) :
    delCategoryKey id st
      = (Except.ok (),
         { st with tick := st.tick + 1,
                   store := { st.store with
                     categories := st.store.categories.filter (fun c => ¬ c.id = id) },
                   trace := st.trace ++ [TraceEv.delKey TableName.categories id] }) := by
  simp [delCategoryKey, Casc_bind_apply, Casc.step, hfail, Casc.getStore,
    Casc.setStore, Casc.emitAll, Casc_pure_apply]

/-- Helper: applied form of the primary-key goal delete when no failure
is injected. -/
theorem delGoalKey_apply (id : String) (st : CascState)
    (hfail : st.failAt = Option.none) :
    delGoalKey id st
      = (Except.ok (),
         { st with tick := st.tick + 1,
                   store := { st.store with
                     goals := st.store.goals.filter (fun g => ¬ g.id = id) },
                   trace := st.trace ++ [TraceEv.delKey TableName.goals id] }) := by
  simp [delGoalKey, Casc_bind_apply, Casc.step, hfail, Casc.getStore,
    Casc.setStore, Casc.emitAll, Casc_pure_apply]

/-- Helper: applied form of the change notification. -/
theorem mNotifyChange_apply (name : String) (d : EvData) (st : CascState) :
    mNotifyChange name d st
      = (Except.ok (),
         { st with trace := st.trace ++ [TraceEv.pub name d, TraceEv.bcast name d,
             TraceEv.pub "database:changed" (EvData.dbChanged name)] }) := rfl

/-- Helper: stamping one id and then a list of ids equals stamping the
whole list at once, for goal rows. -/
theorem map_write_compose_goals (l : List Goal) (gid : String)
    (restIds : List String) (sf : SyncFields) :
    (l.map (fun r => if r.id = gid then { r with sync := sf } else r)).map
      (fun r => if r.id ∈ restIds then { r with sync := sf } else r)
      = l.map (fun r => if r.id ∈ gid :: restIds then { r with sync := sf } else r) := by
  rw [List.map_map]
  apply List.map_congr_left
  intro r _
  by_cases h1 : r.id = gid
  · by_cases h2 : gid ∈ restIds <;> simp [Function.comp, h1, h2]
  · by_cases h2 : r.id ∈ restIds <;> simp [Function.comp, h1, h2]

/-- Helper: the goal-marking loop stamps every listed goal pending-delete:
it succeeds, leaves all tables but goals untouched, rewrites exactly the
listed rows' sync fields, and appends one sync write per goal to the
trace, in order. -/
theorem markGoalsLoop_run (recs : List Goal) (st : CascState)
    (hfail : st.failAt = Option.none)
    (hex : ∀ g ∈ recs, ∃ q ∈ st.store.goals, q.id = g.id) :
    ∃ st', HobbyService.markGoalsLoop recs st = (Except.ok (), st') ∧
      st'.store.categories = st.store.categories ∧
      st'.store.hobbies = st.store.hobbies ∧
      st'.store.goals = st.store.goals.map (fun r =>
        if r.id ∈ recs.map Goal.id then { r with sync := pendingDeleteSF st.now } else r) ∧
      st'.store.progress = st.store.progress ∧
      st'.now = st.now ∧ st'.failAt = Option.none ∧
      st'.trace.filter isDeleteEv = st.trace.filter isDeleteEv ∧
      st'.trace.filter isDeletionPubEv = st.trace.filter isDeletionPubEv ∧
      st'.trace.filter isSyncWriteEv = st.trace.filter isSyncWriteEv
        ++ recs.map (fun g => TraceEv.syncWrite TableName.goals g.id (pendingDeleteSF st.now)) := by
  induction recs generalizing st with
  | nil => exact ⟨st, rfl, rfl, rfl, by simp, rfl, rfl, hfail, rfl, rfl, by simp⟩
  | cons g rest ih =>
      have hsome : (st.store.findSync TableName.goals g.id).isSome = true := by
        obtain ⟨q, hq, hqid⟩ := hex g (List.mem_cons_self g rest)
        simp only [Store.findSync]
        have h2 : (st.store.goals.find? (fun r => decide (r.id = g.id))).isSome = true := by
          rw [List.find?_isSome]
          exact ⟨q, hq, by simp [hqid]⟩
        obtain ⟨v, hv⟩ := Option.isSome_iff_exists.mp h2
        simp [hv]
      obtain ⟨hm1, hm2, hm3, hm4, hm5, hm6, hm7⟩ :=
        mMarkForSync_run TableName.goals g.id st hfail hsome
      have hpair : (mMarkForSync TableName.goals g.id SyncOperationType.delete) st
          = (Except.ok (),
             ((mMarkForSync TableName.goals g.id SyncOperationType.delete) st).2) := by
        rw [← hm1]
      have hrun : HobbyService.markGoalsLoop (g :: rest) st
          = HobbyService.markGoalsLoop rest
              ((mMarkForSync TableName.goals g.id SyncOperationType.delete) st).2 := by
        rw [show HobbyService.markGoalsLoop (g :: rest)
            = (mMarkForSync TableName.goals g.id SyncOperationType.delete >>= fun _ =>
                HobbyService.markGoalsLoop rest) from rfl,
          Casc_bind_apply, hpair]
      have hexr : ∀ q2 ∈ rest,
          ∃ q' ∈ ((mMarkForSync TableName.goals g.id SyncOperationType.delete) st).2.store.goals,
            q'.id = q2.id := by
        intro q2 hq2
        obtain ⟨q, hq, hqid⟩ := hex q2 (List.mem_cons_of_mem g hq2)
        rw [hm2]
        refine ⟨if q.id = g.id then { q with sync := pendingDeleteSF st.now } else q, ?_, ?_⟩
        · simp only [Store.writeSync]
          exact List.mem_map_of_mem _ hq
        · by_cases h : q.id = g.id <;> simpa [h] using hqid
      obtain ⟨st2, hloop, hc1, hc2, hc3, hc4, hc5, hc6, hc7, hc8, hc9⟩ :=
        ih ((mMarkForSync TableName.goals g.id SyncOperationType.delete) st).2 hm4 hexr
      refine ⟨st2, by rw [hrun, hloop], ?_, ?_, ?_, ?_, by rw [hc5, hm3], hc6, ?_, ?_, ?_⟩
      · rw [hc1, hm2]
        simp [Store.writeSync]
      · rw [hc2, hm2]
        simp [Store.writeSync]
      · rw [hc3, hm2, hm3]
        simp only [Store.writeSync]
        rw [map_write_compose_goals]
        rfl
      · rw [hc4, hm2]
        simp [Store.writeSync]
      · rw [hc7, hm5]
      · rw [hc8, hm6]
      · rw [hc9, hm7, hm3]
        simp [List.map_cons]

/-- Helper: congruence for flatMap under pointwise-equal functions. -/
theorem List_flatMap_congr {α β : Type} (l : List α) (f1 f2 : α → List β)
    (h : ∀ x ∈ l, f1 x = f2 x) : l.flatMap f1 = l.flatMap f2 := by
  induction l with
  | nil => rfl
  | cons a as ih =>
      rw [List.flatMap_cons, List.flatMap_cons, h a (List.mem_cons_self a as),
        ih (fun x hx => h x (List.mem_cons_of_mem a hx))]

/-- Helper: dropping one goal's progress rows and then keeping another
goal's rows keeps the same rows, for distinct goal ids. -/
theorem filter_ne_filter_eq_progress (l : List Progress) (a b : String) (hab : ¬ b = a) :
    (l.filter (fun p => ¬ p.goalId = a)).filter (fun p => p.goalId = b)
      = l.filter (fun p => p.goalId = b) := by
  rw [List.filter_filter]
  apply List.filter_congr
  intro x _
  by_cases h1 : x.goalId = b <;> simp [h1, hab]

/-- Helper: dropping one hobby's goal rows and then keeping another
hobby's rows keeps the same rows, for distinct hobby ids. -/
theorem filter_ne_filter_eq_goals (l : List Goal) (a b : String) (hab : ¬ b = a) :
    (l.filter (fun g => ¬ g.hobbyId = a)).filter (fun g => g.hobbyId = b)
      = l.filter (fun g => g.hobbyId = b) := by
  rw [List.filter_filter]
  apply List.filter_congr
  intro x _
  by_cases h1 : x.hobbyId = b <;> simp [h1, hab]

/-- Helper: dropping one goal's progress rows and then every listed
goal's rows drops the rows of the extended list. -/
theorem filter_ne_filter_notMem_progress (l : List Progress) (a : String) (ids : List String) :
    (l.filter (fun p => ¬ p.goalId = a)).filter (fun p => ¬ p.goalId ∈ ids)
      = l.filter (fun p => ¬ p.goalId ∈ a :: ids) := by
  rw [List.filter_filter]
  apply List.filter_congr
  intro x _
  by_cases h1 : x.goalId = a <;> by_cases h2 : x.goalId ∈ ids <;>
    simp [h1, h2, List.mem_cons]

/-- Helper: dropping one hobby's goal rows and then every listed hobby's
rows drops the rows of the extended list. -/
theorem filter_ne_filter_notMem_goals (l : List Goal) (a : String) (ids : List String) :
    (l.filter (fun g => ¬ g.hobbyId = a)).filter (fun g => ¬ g.hobbyId ∈ ids)
      = l.filter (fun g => ¬ g.hobbyId ∈ a :: ids) := by
  rw [List.filter_filter]
  apply List.filter_congr
  intro x _
  by_cases h1 : x.hobbyId = a <;> by_cases h2 : x.hobbyId ∈ ids <;>
    simp [h1, h2, List.mem_cons]

/-- Helper: in a progress list whose ids are distinct, a row whose id
appears among the rows of one goal belongs to that goal. -/
theorem nodup_ids_goalId_of_mem (l : List Progress) (gid : String)
    (hp : (l.map Progress.id).Nodup) :
    ∀ r ∈ l, r.id ∈ (l.filter (fun p => p.goalId = gid)).map Progress.id → r.goalId = gid := by
  intro r hr hid
  obtain ⟨q, hq, hqid⟩ := List.mem_map.mp hid
  have hqmem : q ∈ l := List.mem_of_mem_filter hq
  have hqg : q.goalId = gid := by simpa using List.of_mem_filter hq
  have : q = r := List.inj_on_of_nodup_map hp hqmem hr hqid
  rw [← this]
  exact hqg

/-- Helper: the per-goal cascade of `HobbyService.deleteWithRelated`
stamps each goal's progress rows pending-delete, deletes them, and emits
one goal-scoped deletion event per goal, in goal order; only progress rows
change. -/
theorem goalCascadeLoop_run (gs : List Goal) (st : CascState)
    (hfail : st.failAt = Option.none)
    (hg : (gs.map Goal.id).Nodup)
    (hp : (st.store.progress.map Progress.id).Nodup) :
    ∃ st', HobbyService.goalCascadeLoop gs st = (Except.ok (), st') ∧
      st'.store.categories = st.store.categories ∧
      st'.store.hobbies = st.store.hobbies ∧
      st'.store.goals = st.store.goals ∧
      st'.store.progress = st.store.progress.filter (fun p => ¬ p.goalId ∈ gs.map Goal.id) ∧
      st'.now = st.now ∧ st'.failAt = Option.none ∧
      st'.trace.filter isDeleteEv = st.trace.filter isDeleteEv
        ++ gs.map (fun g => TraceEv.delWhere TableName.progress "goalId" g.id) ∧
      st'.trace.filter isDeletionPubEv = st.trace.filter isDeletionPubEv
        ++ gs.map (fun g => TraceEv.pub "progress:deleted" (EvData.withGoalId g.id)) ∧
      st'.trace.filter isSyncWriteEv = st.trace.filter isSyncWriteEv
        ++ gs.flatMap (fun g => (st.store.progress.filter (fun p => p.goalId = g.id)).map
             (fun p => TraceEv.syncWrite TableName.progress p.id (pendingDeleteSF st.now))) := by
  induction gs generalizing st with
  | nil => exact ⟨st, rfl, rfl, rfl, rfl, by simp, rfl, hfail, by simp, by simp, by simp⟩
  | cons g rest ih =>
      have h1 : HobbyService.goalCascadeLoop (g :: rest) st
          = (HobbyService.markProgressLoop
               (st.store.progress.filter (fun p => p.goalId = g.id)) >>= fun _ =>
             delProgressWhereGoalId g.id >>= fun _ =>
             mNotifyChange "progress:deleted" (EvData.withGoalId g.id) >>= fun _ =>
             HobbyService.goalCascadeLoop rest) { st with tick := st.tick + 1 } := by
        rw [show HobbyService.goalCascadeLoop (g :: rest)
            = (qProgressByGoalId g.id >>= fun recs =>
               HobbyService.markProgressLoop recs >>= fun _ =>
               delProgressWhereGoalId g.id >>= fun _ =>
               mNotifyChange "progress:deleted" (EvData.withGoalId g.id) >>= fun _ =>
               HobbyService.goalCascadeLoop rest) from rfl,
          Casc_bind_apply, qProgressByGoalId_apply g.id st hfail]
      have hexA : ∀ p ∈ st.store.progress.filter (fun p => p.goalId = g.id),
          ∃ q ∈ ({ st with tick := st.tick + 1 } : CascState).store.progress, q.id = p.id :=
        fun p hp2 => ⟨p, List.mem_of_mem_filter hp2, rfl⟩
      obtain ⟨stB, hB, hB1, hB2, hB3, hB4, hB5, hB6, hB7, hB8, hB9⟩ :=
        markProgressLoop_run (st.store.progress.filter (fun p => p.goalId = g.id))
          { st with tick := st.tick + 1 } hfail hexA
      dsimp only at hB1 hB2 hB3 hB4 hB5 hB7 hB8 hB9
      have h2 : HobbyService.goalCascadeLoop (g :: rest) st
          = (delProgressWhereGoalId g.id >>= fun _ =>
             mNotifyChange "progress:deleted" (EvData.withGoalId g.id) >>= fun _ =>
             HobbyService.goalCascadeLoop rest) stB := by
        rw [h1, Casc_bind_apply, hB]
      have h3 : HobbyService.goalCascadeLoop (g :: rest) st
          = (mNotifyChange "progress:deleted" (EvData.withGoalId g.id) >>= fun _ =>
             HobbyService.goalCascadeLoop rest)
              { stB with tick := stB.tick + 1,
                         store := { stB.store with
                           progress := stB.store.progress.filter (fun p => ¬ p.goalId = g.id) },
                         trace := stB.trace
                           ++ [TraceEv.delWhere TableName.progress "goalId" g.id] } := by
        rw [h2, Casc_bind_apply, delProgressWhereGoalId_apply g.id stB hB6]
      have h4 : HobbyService.goalCascadeLoop (g :: rest) st
          = HobbyService.goalCascadeLoop rest
              { stB with tick := stB.tick + 1,
                         store := { stB.store with
                           progress := stB.store.progress.filter (fun p => ¬ p.goalId = g.id) },
                         trace := (stB.trace
                           ++ [TraceEv.delWhere TableName.progress "goalId" g.id])
                           ++ [TraceEv.pub "progress:deleted" (EvData.withGoalId g.id),
                               TraceEv.bcast "progress:deleted" (EvData.withGoalId g.id),
                               TraceEv.pub "database:changed"
                                 (EvData.dbChanged "progress:deleted")] } := by
        rw [h3, Casc_bind_apply, mNotifyChange_apply]
      have hprogB : stB.store.progress.filter (fun p => ¬ p.goalId = g.id)
          = st.store.progress.filter (fun p => ¬ p.goalId = g.id) := by
        rw [hB4]
        exact filter_map_mem_progress st.store.progress _ g.id _
          (nodup_ids_goalId_of_mem st.store.progress g.id hp)
      have hpD : ((st.store.progress.filter (fun p => ¬ p.goalId = g.id)).map
          Progress.id).Nodup :=
        ((List.filter_sublist st.store.progress).map Progress.id).nodup hp
      obtain ⟨stE, hE, hE1, hE2, hE3, hE4, hE5, hE6, hE7, hE8, hE9⟩ :=
        ih { stB with tick := stB.tick + 1,
                      store := { stB.store with
                        progress := stB.store.progress.filter (fun p => ¬ p.goalId = g.id) },
                      trace := (stB.trace
                        ++ [TraceEv.delWhere TableName.progress "goalId" g.id])
                        ++ [TraceEv.pub "progress:deleted" (EvData.withGoalId g.id),
                            TraceEv.bcast "progress:deleted" (EvData.withGoalId g.id),
                            TraceEv.pub "database:changed"
                              (EvData.dbChanged "progress:deleted")] }
          hB6 (List.nodup_cons.mp hg).2 (hprogB.symm ▸ hpD)
      dsimp only at hE1 hE2 hE3 hE4 hE5 hE7 hE8 hE9
      have hgne : ∀ g2 ∈ rest, ¬ g2.id = g.id := by
        intro g2 hg2 hcon
        exact (List.nodup_cons.mp hg).1 (hcon ▸ List.mem_map_of_mem Goal.id hg2)
      refine ⟨stE, by rw [h4, hE], ?_, ?_, ?_, ?_, ?_, hE6, ?_, ?_, ?_⟩
      · rw [hE1, hB1]
      · rw [hE2, hB2]
      · rw [hE3, hB3]
      · rw [hE4, hprogB, filter_ne_filter_notMem_progress]
        simp [List.map_cons]
      · rw [hE5, hB5]
      · rw [hE7]
        simp only [List.filter_append]
        rw [hB7]
        simp [isDeleteEv, List.map_cons, List.append_assoc]
      · rw [hE8]
        simp only [List.filter_append]
        rw [hB8]
        simp [isDeletionPubEv, List.map_cons, List.append_assoc]
      · have hflat2 : rest.flatMap (fun g2 =>
              ((stB.store.progress.filter (fun p => ¬ p.goalId = g.id)).filter
                 (fun p => p.goalId = g2.id)).map
                (fun p => TraceEv.syncWrite TableName.progress p.id (pendingDeleteSF stB.now)))
            = rest.flatMap (fun g2 =>
              (st.store.progress.filter (fun p => p.goalId = g2.id)).map
                (fun p => TraceEv.syncWrite TableName.progress p.id (pendingDeleteSF st.now))) := by
          apply List_flatMap_congr
          intro g2 hg2
          rw [hprogB, filter_ne_filter_eq_progress st.store.progress g.id g2.id (hgne g2 hg2),
            hB5]
        rw [hE9]
        simp only [List.filter_append]
        rw [hB9, hflat2]
        simp [isSyncWriteEv, List.flatMap_cons, List.append_assoc]

/-- Helper: the category cascade's per-goal progress deletion loop: plain
range deletes, one per goal, with no sync writes and no published
events. -/
theorem goalProgressLoop_run (gs : List Goal) (st : CascState)
    (hfail : st.failAt = Option.none) :
    ∃ st', CategoryService.goalProgressLoop gs st = (Except.ok (), st') ∧
      st'.store.categories = st.store.categories ∧
      st'.store.hobbies = st.store.hobbies ∧
      st'.store.goals = st.store.goals ∧
      st'.now = st.now ∧ st'.failAt = Option.none ∧
      st'.trace.filter isDeleteEv = st.trace.filter isDeleteEv
        ++ gs.map (fun g => TraceEv.delWhere TableName.progress "goalId" g.id) ∧
      st'.trace.filter isDeletionPubEv = st.trace.filter isDeletionPubEv ∧
      st'.trace.filter isSyncWriteEv = st.trace.filter isSyncWriteEv := by
  induction gs generalizing st with
  | nil => exact ⟨st, rfl, rfl, rfl, rfl, rfl, hfail, by simp, rfl, rfl⟩
  | cons g rest ih =>
      have h1 : CategoryService.goalProgressLoop (g :: rest) st
          = CategoryService.goalProgressLoop rest
              { st with tick := st.tick + 1,
                        store := { st.store with
                          progress := st.store.progress.filter (fun p => ¬ p.goalId = g.id) },
                        trace := st.trace
                          ++ [TraceEv.delWhere TableName.progress "goalId" g.id] } := by
        rw [show CategoryService.goalProgressLoop (g :: rest)
            = (delProgressWhereGoalId g.id >>= fun _ =>
               CategoryService.goalProgressLoop rest) from rfl,
          Casc_bind_apply, delProgressWhereGoalId_apply g.id st hfail]
      obtain ⟨stE, hE, hE1, hE2, hE3, hE4, hE5, hE6, hE7, hE8⟩ :=
        ih { st with tick := st.tick + 1,
                     store := { st.store with
                       progress := st.store.progress.filter (fun p => ¬ p.goalId = g.id) },
                     trace := st.trace
                       ++ [TraceEv.delWhere TableName.progress "goalId" g.id] } hfail
      dsimp only at hE1 hE2 hE3 hE4 hE6 hE7 hE8
      refine ⟨stE, by rw [h1, hE], hE1, hE2, hE3, hE4, hE5, ?_, ?_, ?_⟩
      · rw [hE6]
        simp [List.filter_append, isDeleteEv, List.map_cons, List.append_assoc]
      · rw [hE7]
        simp [List.filter_append, isDeletionPubEv]
      · rw [hE8]
        simp [List.filter_append, isSyncWriteEv]

/-- Helper: the category cascade's per-hobby loop: for each hobby, plain
range deletes of its goals' progress and of its goals, depth-first, with
no sync writes and no published events. -/
theorem hobbyCascadeLoop_run (hs : List Hobby) (st : CascState)
    (hfail : st.failAt = Option.none)
    (hh : (hs.map Hobby.id).Nodup) :
    ∃ st', CategoryService.hobbyCascadeLoop hs st = (Except.ok (), st') ∧
      st'.store.categories = st.store.categories ∧
      st'.store.hobbies = st.store.hobbies ∧
      st'.store.goals = st.store.goals.filter (fun g => ¬ g.hobbyId ∈ hs.map Hobby.id) ∧
      st'.now = st.now ∧ st'.failAt = Option.none ∧
      st'.trace.filter isDeleteEv = st.trace.filter isDeleteEv
        ++ hs.flatMap (fun h => (st.store.goals.filter (fun g => g.hobbyId = h.id)).map
             (fun g => TraceEv.delWhere TableName.progress "goalId" g.id)
             ++ [TraceEv.delWhere TableName.goals "hobbyId" h.id]) ∧
      st'.trace.filter isDeletionPubEv = st.trace.filter isDeletionPubEv ∧
      st'.trace.filter isSyncWriteEv = st.trace.filter isSyncWriteEv := by
  induction hs generalizing st with
  | nil => exact ⟨st, rfl, rfl, rfl, by simp, rfl, hfail, by simp, rfl, rfl⟩
  | cons h rest ih =>
      have h1 : CategoryService.hobbyCascadeLoop (h :: rest) st
          = (CategoryService.goalProgressLoop
               (st.store.goals.filter (fun g => g.hobbyId = h.id)) >>= fun _ =>
             delGoalsWhereHobbyId h.id >>= fun _ =>
             CategoryService.hobbyCascadeLoop rest) { st with tick := st.tick + 1 } := by
        rw [show CategoryService.hobbyCascadeLoop (h :: rest)
            = (qGoalsByHobbyId h.id >>= fun gs =>
               CategoryService.goalProgressLoop gs >>= fun _ =>
               delGoalsWhereHobbyId h.id >>= fun _ =>
               CategoryService.hobbyCascadeLoop rest) from rfl,
          Casc_bind_apply, qGoalsByHobbyId_apply h.id st hfail]
      obtain ⟨stB, hB, hB1, hB2, hB3, hB4, hB5, hB6, hB7, hB8⟩ :=
        goalProgressLoop_run (st.store.goals.filter (fun g => g.hobbyId = h.id))
          { st with tick := st.tick + 1 } hfail
      dsimp only at hB1 hB2 hB3 hB4 hB6 hB7 hB8
      have h2 : CategoryService.hobbyCascadeLoop (h :: rest) st
          = (delGoalsWhereHobbyId h.id >>= fun _ =>
             CategoryService.hobbyCascadeLoop rest) stB := by
        rw [h1, Casc_bind_apply, hB]
      have h3 : CategoryService.hobbyCascadeLoop (h :: rest) st
          = CategoryService.hobbyCascadeLoop rest
              { stB with tick := stB.tick + 1,
                         store := { stB.store with
                           goals := stB.store.goals.filter (fun g => ¬ g.hobbyId = h.id) },
                         trace := stB.trace
                           ++ [TraceEv.delWhere TableName.goals "hobbyId" h.id] } := by
        rw [h2, Casc_bind_apply, delGoalsWhereHobbyId_apply h.id stB hB5]
      have hgoalsB : stB.store.goals.filter (fun g => ¬ g.hobbyId = h.id)
          = st.store.goals.filter (fun g => ¬ g.hobbyId = h.id) := by
        rw [hB3]
      obtain ⟨stE, hE, hE1, hE2, hE3, hE4, hE5, hE6, hE7, hE8⟩ :=
        ih { stB with tick := stB.tick + 1,
                      store := { stB.store with
                        goals := stB.store.goals.filter (fun g => ¬ g.hobbyId = h.id) },
                      trace := stB.trace
                        ++ [TraceEv.delWhere TableName.goals "hobbyId" h.id] }
          hB5 (List.nodup_cons.mp hh).2
      dsimp only at hE1 hE2 hE3 hE4 hE6 hE7 hE8
      have hhne : ∀ h2 ∈ rest, ¬ h2.id = h.id := by
        intro h2 hh2 hcon
        exact (List.nodup_cons.mp hh).1 (hcon ▸ List.mem_map_of_mem Hobby.id hh2)
      refine ⟨stE, by rw [h3, hE], ?_, ?_, ?_, ?_, hE5, ?_, ?_, ?_⟩
      · rw [hE1, hB1]
      · rw [hE2, hB2]
      · rw [hE3, hgoalsB, filter_ne_filter_notMem_goals]
        simp [List.map_cons]
      · rw [hE4, hB4]
      · have hflat2 : rest.flatMap (fun h2 =>
              ((stB.store.goals.filter (fun g => ¬ g.hobbyId = h.id)).filter
                 (fun g => g.hobbyId = h2.id)).map
                (fun g => TraceEv.delWhere TableName.progress "goalId" g.id)
                ++ [TraceEv.delWhere TableName.goals "hobbyId" h2.id])
            = rest.flatMap (fun h2 =>
              (st.store.goals.filter (fun g => g.hobbyId = h2.id)).map
                (fun g => TraceEv.delWhere TableName.progress "goalId" g.id)
                ++ [TraceEv.delWhere TableName.goals "hobbyId" h2.id]) := by
          apply List_flatMap_congr
          intro h2 hh2
          rw [hgoalsB, filter_ne_filter_eq_goals st.store.goals h.id h2.id (hhne h2 hh2)]
        rw [hE6]
        simp only [List.filter_append]
        rw [hB6, hflat2]
        simp [isDeleteEv, List.flatMap_cons, List.append_assoc]
      · rw [hE7]
        simp only [List.filter_append]
        rw [hB7]
        simp [isDeletionPubEv]
      · rw [hE8]
        simp only [List.filter_append]
        rw [hB8]
        simp [isSyncWriteEv]

/-- Helper: the transaction body of `HobbyService.deleteWithRelated`:
per related goal it stamps and deletes the progress rows with a
goal-scoped event, then stamps and deletes the goals with a hobby-scoped
event, then stamps and deletes the hobby with its event. -/
theorem hobby_body_run (id : String) (st : CascState)
    (hfail : st.failAt = Option.none)
    (hgoals : (st.store.goals.map Goal.id).Nodup)
    (hprog : (st.store.progress.map Progress.id).Nodup)
    (hhob : ∃ h ∈ st.store.hobbies, h.id = id) :
    ∃ st', (qGoalsByHobbyId id >>= fun relatedGoals =>
        HobbyService.goalCascadeLoop relatedGoals >>= fun _ =>
        HobbyService.markGoalsLoop relatedGoals >>= fun _ =>
        delGoalsWhereHobbyId id >>= fun _ =>
        mNotifyChange "goal:deleted" (EvData.withHobbyId id) >>= fun _ =>
        mMarkForSync TableName.hobbies id SyncOperationType.delete >>= fun _ =>
        delHobbyKey id >>= fun _ =>
        mNotifyChange "hobby:deleted" (EvData.str id)) st = (Except.ok (), st') ∧
      st'.trace.filter isDeleteEv = st.trace.filter isDeleteEv
        ++ (st.store.goals.filter (fun g => g.hobbyId = id)).map
             (fun g => TraceEv.delWhere TableName.progress "goalId" g.id)
        ++ [TraceEv.delWhere TableName.goals "hobbyId" id, TraceEv.delKey TableName.hobbies id] ∧
      st'.trace.filter isDeletionPubEv = st.trace.filter isDeletionPubEv
        ++ (st.store.goals.filter (fun g => g.hobbyId = id)).map
             (fun g => TraceEv.pub "progress:deleted" (EvData.withGoalId g.id))
        ++ [TraceEv.pub "goal:deleted" (EvData.withHobbyId id),
            TraceEv.pub "hobby:deleted" (EvData.str id)] ∧
      st'.trace.filter isSyncWriteEv = st.trace.filter isSyncWriteEv
        ++ (st.store.goals.filter (fun g => g.hobbyId = id)).flatMap
             (fun g => (st.store.progress.filter (fun p => p.goalId = g.id)).map
               (fun p => TraceEv.syncWrite TableName.progress p.id (pendingDeleteSF st.now)))
        ++ (st.store.goals.filter (fun g => g.hobbyId = id)).map
             (fun g => TraceEv.syncWrite TableName.goals g.id (pendingDeleteSF st.now))
        ++ [TraceEv.syncWrite TableName.hobbies id (pendingDeleteSF st.now)] := by
  have h1 : (qGoalsByHobbyId id >>= fun relatedGoals =>
        HobbyService.goalCascadeLoop relatedGoals >>= fun _ =>
        HobbyService.markGoalsLoop relatedGoals >>= fun _ =>
        delGoalsWhereHobbyId id >>= fun _ =>
        mNotifyChange "goal:deleted" (EvData.withHobbyId id) >>= fun _ =>
        mMarkForSync TableName.hobbies id SyncOperationType.delete >>= fun _ =>
        delHobbyKey id >>= fun _ =>
        mNotifyChange "hobby:deleted" (EvData.str id)) st
      = (HobbyService.goalCascadeLoop (st.store.goals.filter (fun g => g.hobbyId = id)) >>= fun _ =>
        HobbyService.markGoalsLoop (st.store.goals.filter (fun g => g.hobbyId = id)) >>= fun _ =>
        delGoalsWhereHobbyId id >>= fun _ =>
        mNotifyChange "goal:deleted" (EvData.withHobbyId id) >>= fun _ =>
        mMarkForSync TableName.hobbies id SyncOperationType.delete >>= fun _ =>
        delHobbyKey id >>= fun _ =>
        mNotifyChange "hobby:deleted" (EvData.str id)) { st with tick := st.tick + 1 } := by
    rw [Casc_bind_apply, qGoalsByHobbyId_apply id st hfail]
  obtain ⟨stC, hC, hC1, hC2, hC3, hC4, hC5, hC6, hC7, hC8, hC9⟩ :=
    goalCascadeLoop_run (st.store.goals.filter (fun g => g.hobbyId = id))
      { st with tick := st.tick + 1 } hfail
      (((List.filter_sublist st.store.goals).map Goal.id).nodup hgoals) hprog
  dsimp only at hC1 hC2 hC3 hC4 hC5 hC7 hC8 hC9
  have h2 := h1.trans (by rw [Casc_bind_apply, hC] :
    (HobbyService.goalCascadeLoop (st.store.goals.filter (fun g => g.hobbyId = id)) >>= fun _ =>
        HobbyService.markGoalsLoop (st.store.goals.filter (fun g => g.hobbyId = id)) >>= fun _ =>
        delGoalsWhereHobbyId id >>= fun _ =>
        mNotifyChange "goal:deleted" (EvData.withHobbyId id) >>= fun _ =>
        mMarkForSync TableName.hobbies id SyncOperationType.delete >>= fun _ =>
        delHobbyKey id >>= fun _ =>
        mNotifyChange "hobby:deleted" (EvData.str id)) { st with tick := st.tick + 1 }
      = (HobbyService.markGoalsLoop (st.store.goals.filter (fun g => g.hobbyId = id)) >>= fun _ =>
        delGoalsWhereHobbyId id >>= fun _ =>
        mNotifyChange "goal:deleted" (EvData.withHobbyId id) >>= fun _ =>
        mMarkForSync TableName.hobbies id SyncOperationType.delete >>= fun _ =>
        delHobbyKey id >>= fun _ =>
        mNotifyChange "hobby:deleted" (EvData.str id)) stC)
  have hexC : ∀ g ∈ st.store.goals.filter (fun g => g.hobbyId = id),
      ∃ q ∈ stC.store.goals, q.id = g.id := by
    intro g hgm
    rw [hC3]
    exact ⟨g, List.mem_of_mem_filter hgm, rfl⟩
  obtain ⟨stD, hD, hD1, hD2, hD3, hD4, hD5, hD6, hD7, hD8, hD9⟩ :=
    markGoalsLoop_run (st.store.goals.filter (fun g => g.hobbyId = id)) stC hC6 hexC
  have h3 := h2.trans (by rw [Casc_bind_apply, hD] :
    (HobbyService.markGoalsLoop (st.store.goals.filter (fun g => g.hobbyId = id)) >>= fun _ =>
        delGoalsWhereHobbyId id >>= fun _ =>
        mNotifyChange "goal:deleted" (EvData.withHobbyId id) >>= fun _ =>
        mMarkForSync TableName.hobbies id SyncOperationType.delete >>= fun _ =>
        delHobbyKey id >>= fun _ =>
        mNotifyChange "hobby:deleted" (EvData.str id)) stC
      = (delGoalsWhereHobbyId id >>= fun _ =>
        mNotifyChange "goal:deleted" (EvData.withHobbyId id) >>= fun _ =>
        mMarkForSync TableName.hobbies id SyncOperationType.delete >>= fun _ =>
        delHobbyKey id >>= fun _ =>
        mNotifyChange "hobby:deleted" (EvData.str id)) stD)
  have h4 := h3.trans (by rw [Casc_bind_apply, delGoalsWhereHobbyId_apply id stD hD6] :
    (delGoalsWhereHobbyId id >>= fun _ =>
        mNotifyChange "goal:deleted" (EvData.withHobbyId id) >>= fun _ =>
        mMarkForSync TableName.hobbies id SyncOperationType.delete >>= fun _ =>
        delHobbyKey id >>= fun _ =>
        mNotifyChange "hobby:deleted" (EvData.str id)) stD
      = (mNotifyChange "goal:deleted" (EvData.withHobbyId id) >>= fun _ =>
        mMarkForSync TableName.hobbies id SyncOperationType.delete >>= fun _ =>
        delHobbyKey id >>= fun _ =>
        mNotifyChange "hobby:deleted" (EvData.str id))
        { stD with tick := stD.tick + 1,
                   store := { stD.store with
                     goals := stD.store.goals.filter (fun g => ¬ g.hobbyId = id) },
                   trace := stD.trace ++ [TraceEv.delWhere TableName.goals "hobbyId" id] })
  have h5 := h4.trans (by rw [Casc_bind_apply, mNotifyChange_apply] :
    (mNotifyChange "goal:deleted" (EvData.withHobbyId id) >>= fun _ =>
        mMarkForSync TableName.hobbies id SyncOperationType.delete >>= fun _ =>
        delHobbyKey id >>= fun _ =>
        mNotifyChange "hobby:deleted" (EvData.str id))
        { stD with tick := stD.tick + 1,
                   store := { stD.store with
                     goals := stD.store.goals.filter (fun g => ¬ g.hobbyId = id) },
                   trace := stD.trace ++ [TraceEv.delWhere TableName.goals "hobbyId" id] }
      = (mMarkForSync TableName.hobbies id SyncOperationType.delete >>= fun _ =>
        delHobbyKey id >>= fun _ =>
        mNotifyChange "hobby:deleted" (EvData.str id))
        { stD with tick := stD.tick + 1,
                   store := { stD.store with
                     goals := stD.store.goals.filter (fun g => ¬ g.hobbyId = id) },
                   trace := (stD.trace ++ [TraceEv.delWhere TableName.goals "hobbyId" id])
                     ++ [TraceEv.pub "goal:deleted" (EvData.withHobbyId id),
                         TraceEv.bcast "goal:deleted" (EvData.withHobbyId id),
                         TraceEv.pub "database:changed" (EvData.dbChanged "goal:deleted")] })
  have hsomeF : ((({ stD with
                       tick := stD.tick + 1,
                       store := { stD.store with
                                    goals := stD.store.goals.filter (fun g => ¬ g.hobbyId = id) },
                       trace := (stD.trace ++ [TraceEv.delWhere TableName.goals "hobbyId" id])
                         ++ [TraceEv.pub "goal:deleted" (EvData.withHobbyId id),
                             TraceEv.bcast "goal:deleted" (EvData.withHobbyId id),
                             TraceEv.pub "database:changed" (EvData.dbChanged "goal:deleted")] }
      : CascState).store.findSync TableName.hobbies id)).isSome = true := by
    obtain ⟨h0, hmem, hid⟩ := hhob
    dsimp only [Store.findSync]
    have h2m : (({ stD with
                      tick := stD.tick + 1,
                      store := { stD.store with
                                   goals := stD.store.goals.filter (fun g => ¬ g.hobbyId = id) },
                      trace := (stD.trace ++ [TraceEv.delWhere TableName.goals "hobbyId" id])
                        ++ [TraceEv.pub "goal:deleted" (EvData.withHobbyId id),
                            TraceEv.bcast "goal:deleted" (EvData.withHobbyId id),
                            TraceEv.pub "database:changed" (EvData.dbChanged "goal:deleted")] }
        : CascState).store.hobbies.find? (fun r => decide (r.id = id))).isSome = true := by
      rw [List.find?_isSome]
      refine ⟨h0, ?_, by simp [hid]⟩
      dsimp only
      rw [hD2, hC2]
      exact hmem
    obtain ⟨v, hv⟩ := Option.isSome_iff_exists.mp h2m
    simp [hv]
  obtain ⟨hM1, hM2, hM3, hM4, hM5, hM6, hM7⟩ :=
    mMarkForSync_run TableName.hobbies id
      { stD with tick := stD.tick + 1,
                 store := { stD.store with
                   goals := stD.store.goals.filter (fun g => ¬ g.hobbyId = id) },
                 trace := (stD.trace ++ [TraceEv.delWhere TableName.goals "hobbyId" id])
                   ++ [TraceEv.pub "goal:deleted" (EvData.withHobbyId id),
                       TraceEv.bcast "goal:deleted" (EvData.withHobbyId id),
                       TraceEv.pub "database:changed" (EvData.dbChanged "goal:deleted")] }
      hD6 hsomeF
  dsimp only at hM3 hM4 hM5 hM6 hM7
  have hpairM : (mMarkForSync TableName.hobbies id SyncOperationType.delete)
      { stD with tick := stD.tick + 1,
                 store := { stD.store with
                   goals := stD.store.goals.filter (fun g => ¬ g.hobbyId = id) },
                 trace := (stD.trace ++ [TraceEv.delWhere TableName.goals "hobbyId" id])
                   ++ [TraceEv.pub "goal:deleted" (EvData.withHobbyId id),
                       TraceEv.bcast "goal:deleted" (EvData.withHobbyId id),
                       TraceEv.pub "database:changed" (EvData.dbChanged "goal:deleted")] }
      = (Except.ok (), ((mMarkForSync TableName.hobbies id SyncOperationType.delete)
      { stD with tick := stD.tick + 1,
                 store := { stD.store with
                   goals := stD.store.goals.filter (fun g => ¬ g.hobbyId = id) },
                 trace := (stD.trace ++ [TraceEv.delWhere TableName.goals "hobbyId" id])
                   ++ [TraceEv.pub "goal:deleted" (EvData.withHobbyId id),
                       TraceEv.bcast "goal:deleted" (EvData.withHobbyId id),
                       TraceEv.pub "database:changed" (EvData.dbChanged "goal:deleted")] }).2) := by
    rw [← hM1]
  have h6 := h5.trans (by rw [Casc_bind_apply, hpairM] :
    (mMarkForSync TableName.hobbies id SyncOperationType.delete >>= fun _ =>
        delHobbyKey id >>= fun _ =>
        mNotifyChange "hobby:deleted" (EvData.str id))
        { stD with tick := stD.tick + 1,
                   store := { stD.store with
                     goals := stD.store.goals.filter (fun g => ¬ g.hobbyId = id) },
                   trace := (stD.trace ++ [TraceEv.delWhere TableName.goals "hobbyId" id])
                     ++ [TraceEv.pub "goal:deleted" (EvData.withHobbyId id),
                         TraceEv.bcast "goal:deleted" (EvData.withHobbyId id),
                         TraceEv.pub "database:changed" (EvData.dbChanged "goal:deleted")] }
      = (delHobbyKey id >>= fun _ =>
        mNotifyChange "hobby:deleted" (EvData.str id))
        ((mMarkForSync TableName.hobbies id SyncOperationType.delete)
        { stD with tick := stD.tick + 1,
                   store := { stD.store with
                     goals := stD.store.goals.filter (fun g => ¬ g.hobbyId = id) },
                   trace := (stD.trace ++ [TraceEv.delWhere TableName.goals "hobbyId" id])
                     ++ [TraceEv.pub "goal:deleted" (EvData.withHobbyId id),
                         TraceEv.bcast "goal:deleted" (EvData.withHobbyId id),
                         TraceEv.pub "database:changed" (EvData.dbChanged "goal:deleted")] }).2)
  set stG := ((mMarkForSync TableName.hobbies id SyncOperationType.delete)
      { stD with tick := stD.tick + 1,
                 store := { stD.store with
                   goals := stD.store.goals.filter (fun g => ¬ g.hobbyId = id) },
                 trace := (stD.trace ++ [TraceEv.delWhere TableName.goals "hobbyId" id])
                   ++ [TraceEv.pub "goal:deleted" (EvData.withHobbyId id),
                       TraceEv.bcast "goal:deleted" (EvData.withHobbyId id),
                       TraceEv.pub "database:changed" (EvData.dbChanged "goal:deleted")] }).2
    with hstG
  have h7 := h6.trans (by rw [Casc_bind_apply, delHobbyKey_apply id stG hM4] :
    (delHobbyKey id >>= fun _ => mNotifyChange "hobby:deleted" (EvData.str id)) stG
      = mNotifyChange "hobby:deleted" (EvData.str id)
          { stG with tick := stG.tick + 1,
                     store := { stG.store with
                       hobbies := stG.store.hobbies.filter (fun h => ¬ h.id = id) },
                     trace := stG.trace ++ [TraceEv.delKey TableName.hobbies id] })
  have hbody := h7.trans (mNotifyChange_apply "hobby:deleted" (EvData.str id)
    { stG with tick := stG.tick + 1,
               store := { stG.store with
                 hobbies := stG.store.hobbies.filter (fun h => ¬ h.id = id) },
               trace := stG.trace ++ [TraceEv.delKey TableName.hobbies id] })
  refine ⟨_, hbody, ?_, ?_, ?_⟩
  · dsimp only
    simp only [List.filter_append]
    rw [hM5]
    simp only [List.filter_append]
    rw [hD7, hC7]
    simp [isDeleteEv, List.append_assoc]
  · dsimp only
    simp only [List.filter_append]
    rw [hM6]
    simp only [List.filter_append]
    rw [hD8, hC8]
    simp [isDeletionPubEv, List.append_assoc]
  · dsimp only
    simp only [List.filter_append]
    rw [hM7]
    simp only [List.filter_append]
    rw [hD9, hC9]
    simp [isSyncWriteEv, List.append_assoc]
    rw [hD5, hC5]

/-- Helper: the transaction body of `CategoryService.deleteWithRelated`:
depth-first plain deletes over all four tables with no sync writes and no
published events. -/
theorem category_body_run (id : String) (st : CascState)
    (hfail : st.failAt = Option.none)
    (hhids : (st.store.hobbies.map Hobby.id).Nodup) :
    ∃ st', (qHobbiesByCategoryId id >>= fun relatedHobbies =>
        CategoryService.hobbyCascadeLoop relatedHobbies >>= fun _ =>
        delHobbiesWhereCategoryId id >>= fun _ =>
        delCategoryKey id) st = (Except.ok (), st') ∧
      st'.trace.filter isDeleteEv = st.trace.filter isDeleteEv
        ++ (st.store.hobbies.filter (fun h => h.categoryId = id)).flatMap
             (fun h => (st.store.goals.filter (fun g => g.hobbyId = h.id)).map
               (fun g => TraceEv.delWhere TableName.progress "goalId" g.id)
               ++ [TraceEv.delWhere TableName.goals "hobbyId" h.id])
        ++ [TraceEv.delWhere TableName.hobbies "categoryId" id,
            TraceEv.delKey TableName.categories id] ∧
      st'.trace.filter isDeletionPubEv = st.trace.filter isDeletionPubEv ∧
      st'.trace.filter isSyncWriteEv = st.trace.filter isSyncWriteEv := by
  have h1 : (qHobbiesByCategoryId id >>= fun relatedHobbies =>
        CategoryService.hobbyCascadeLoop relatedHobbies >>= fun _ =>
        delHobbiesWhereCategoryId id >>= fun _ =>
        delCategoryKey id) st
      = (CategoryService.hobbyCascadeLoop
           (st.store.hobbies.filter (fun h => h.categoryId = id)) >>= fun _ =>
        delHobbiesWhereCategoryId id >>= fun _ =>
        delCategoryKey id) { st with tick := st.tick + 1 } := by
    rw [Casc_bind_apply, qHobbiesByCategoryId_apply id st hfail]
  obtain ⟨stC, hC, hC1, hC2, hC3, hC4, hC5, hC6, hC7, hC8⟩ :=
    hobbyCascadeLoop_run (st.store.hobbies.filter (fun h => h.categoryId = id))
      { st with tick := st.tick + 1 } hfail
      (((List.filter_sublist st.store.hobbies).map Hobby.id).nodup hhids)
  dsimp only at hC1 hC2 hC3 hC4 hC6 hC7 hC8
  have h2 := h1.trans (by rw [Casc_bind_apply, hC] :
    (CategoryService.hobbyCascadeLoop
        (st.store.hobbies.filter (fun h => h.categoryId = id)) >>= fun _ =>
      delHobbiesWhereCategoryId id >>= fun _ =>
      delCategoryKey id) { st with tick := st.tick + 1 }
      = (delHobbiesWhereCategoryId id >>= fun _ => delCategoryKey id) stC)
  have h3 := h2.trans (by rw [Casc_bind_apply, delHobbiesWhereCategoryId_apply id stC hC5] :
    (delHobbiesWhereCategoryId id >>= fun _ => delCategoryKey id) stC
      = delCategoryKey id
          { stC with tick := stC.tick + 1,
                     store := { stC.store with
                       hobbies := stC.store.hobbies.filter (fun h => ¬ h.categoryId = id) },
                     trace := stC.trace
                       ++ [TraceEv.delWhere TableName.hobbies "categoryId" id] })
  have hbody := h3.trans (delCategoryKey_apply id
    { stC with tick := stC.tick + 1,
               store := { stC.store with
                 hobbies := stC.store.hobbies.filter (fun h => ¬ h.categoryId = id) },
               trace := stC.trace
                 ++ [TraceEv.delWhere TableName.hobbies "categoryId" id] } hC5)
  refine ⟨_, hbody, ?_, ?_, ?_⟩
  · dsimp only
    simp only [List.filter_append]
    rw [hC6]
    simp [isDeleteEv, List.append_assoc]
  · dsimp only
    simp only [List.filter_append]
    rw [hC7]
    simp [isDeletionPubEv]
  · dsimp only
    simp only [List.filter_append]
    rw [hC8]
    simp [isSyncWriteEv]

/-- Helper: the transaction body of `GoalService.deleteWithRelated`:
plain deletes of the progress rows and the goal plus a cache drop, with
no sync writes and no published events. -/
theorem goal_body_run (id : String) (st : CascState)
    (hfail : st.failAt = Option.none) :
    ∃ st', (delProgressWhereGoalId id >>= fun _ =>
        delGoalKey id >>= fun _ =>
        mCacheDelete id) st = (Except.ok (), st') ∧
      st'.trace.filter isDeleteEv = st.trace.filter isDeleteEv
        ++ [TraceEv.delWhere TableName.progress "goalId" id,
            TraceEv.delKey TableName.goals id] ∧
      st'.trace.filter isDeletionPubEv = st.trace.filter isDeletionPubEv ∧
      st'.trace.filter isSyncWriteEv = st.trace.filter isSyncWriteEv := by
  have h1 : (delProgressWhereGoalId id >>= fun _ =>
        delGoalKey id >>= fun _ =>
        mCacheDelete id) st
      = (delGoalKey id >>= fun _ => mCacheDelete id)
          { st with tick := st.tick + 1,
                    store := { st.store with
                      progress := st.store.progress.filter (fun p => ¬ p.goalId = id) },
                    trace := st.trace
                      ++ [TraceEv.delWhere TableName.progress "goalId" id] } := by
    rw [Casc_bind_apply, delProgressWhereGoalId_apply id st hfail]
  have h2 := h1.trans (by rw [Casc_bind_apply, delGoalKey_apply]; exact hfail :
    (delGoalKey id >>= fun _ => mCacheDelete id)
        { st with tick := st.tick + 1,
                  store := { st.store with
                    progress := st.store.progress.filter (fun p => ¬ p.goalId = id) },
                  trace := st.trace
                    ++ [TraceEv.delWhere TableName.progress "goalId" id] }
      = mCacheDelete id
          { st with tick := st.tick + 1 + 1,
                    store := { st.store with
                      progress := st.store.progress.filter (fun p => ¬ p.goalId = id),
                      goals := st.store.goals.filter (fun g => ¬ g.id = id) },
                    trace := (st.trace
                      ++ [TraceEv.delWhere TableName.progress "goalId" id])
                      ++ [TraceEv.delKey TableName.goals id] })
  have hbody := h2.trans (rfl :
    mCacheDelete id
        { st with tick := st.tick + 1 + 1,
                  store := { st.store with
                    progress := st.store.progress.filter (fun p => ¬ p.goalId = id),
                    goals := st.store.goals.filter (fun g => ¬ g.id = id) },
                  trace := (st.trace
                    ++ [TraceEv.delWhere TableName.progress "goalId" id])
                    ++ [TraceEv.delKey TableName.goals id] }
      = (Except.ok (),
         { st with tick := st.tick + 1 + 1,
                   store := { st.store with
                     progress := st.store.progress.filter (fun p => ¬ p.goalId = id),
                     goals := st.store.goals.filter (fun g => ¬ g.id = id) },
                   trace := (st.trace
                     ++ [TraceEv.delWhere TableName.progress "goalId" id])
                     ++ [TraceEv.delKey TableName.goals id],
                   cache := fun x => if x = id then Option.none else st.cache x }))
  refine ⟨_, hbody, ?_, ?_, ?_⟩
  · dsimp only
    simp [List.filter_append, isDeleteEv, List.append_assoc]
  · dsimp only
    simp [List.filter_append, isDeletionPubEv]
  · dsimp only
    simp [List.filter_append, isSyncWriteEv]

set_option maxHeartbeats 2000000 in
/-- C5 (counterexample): `CategoryService.deleteWithRelated("c1")` on the
store whose chain is c1 → h1 → g1 → p1 succeeds and deletes every level —
the trace shows the four depth-first delete operations and all four
tables end empty — yet the trace contains no deletion event and no
pending-delete sync write: the claim's "for each deleted level it stamps
a pending-delete sync marker on the rows and emits a deletion event
scoped to that level" fails for the category cascade. -/
theorem C5_cascade_stamping_counterexample :
    (runCasc (CategoryService.deleteWithRelated "c1") Option.none 5 store1).1
        = Except.ok () ∧
    (runCasc (CategoryService.deleteWithRelated "c1") Option.none 5 store1).2.1.categories
        = [] ∧
    (runCasc (CategoryService.deleteWithRelated "c1") Option.none 5 store1).2.1.hobbies
        = [] ∧
    (runCasc (CategoryService.deleteWithRelated "c1") Option.none 5 store1).2.1.goals
        = [] ∧
    (runCasc (CategoryService.deleteWithRelated "c1") Option.none 5 store1).2.1.progress
        = [] ∧
    ((runCasc (CategoryService.deleteWithRelated "c1") Option.none 5 store1).2.2.filter
        isDeleteEv)
        = [TraceEv.delWhere TableName.progress "goalId" "g1",
           TraceEv.delWhere TableName.goals "hobbyId" "h1",
           TraceEv.delWhere TableName.hobbies "categoryId" "c1",
           TraceEv.delKey TableName.categories "c1"] ∧
    ((runCasc (CategoryService.deleteWithRelated "c1") Option.none 5 store1).2.2.filter
        isDeletionPubEv) = [] ∧
    ((runCasc (CategoryService.deleteWithRelated "c1") Option.none 5 store1).2.2.filter
        isSyncWriteEv) = [] := by
  have hrun : runCasc (CategoryService.deleteWithRelated "c1") Option.none 5 store1
      = (Except.ok (),
         { categories := [], hobbies := [], goals := [], progress := [] },
         [TraceEv.delWhere TableName.progress "goalId" "g1",
          TraceEv.delWhere TableName.goals "hobbyId" "h1",
          TraceEv.delWhere TableName.hobbies "categoryId" "c1",
          TraceEv.delKey TableName.categories "c1"]) := rfl
  refine ⟨?_, ?_, ?_, ?_, ?_, ?_, ?_, ?_⟩ <;> rw [hrun] <;> rfl

/-- C5 (amended): every `deleteWithRelated` runs one transaction and
deletes depth-first with leaves first — progress before goals, goals
before the hobby, the target row last — but only
`HobbyService.deleteWithRelated` stamps pending-delete sync markers on
each level's rows and emits a deletion event per level (one goal-scoped
`PROGRESS_DELETED` per related goal, then `GOAL_DELETED`, then
`HOBBY_DELETED`); `CategoryService.deleteWithRelated`
and `GoalService.deleteWithRelated` perform plain deletes: they stamp no
sync markers and emit no deletion events at any level. Stated over any
store with distinct row ids and an existing target hobby row. -/
theorem C5_cascade_depthfirst_amended (id : String) (now : ℕ) (s : Store)
    (hg : (s.goals.map Goal.id).Nodup)
    (hp : (s.progress.map Progress.id).Nodup)
    (hh : (s.hobbies.map Hobby.id).Nodup)
    (hhob : ∃ h ∈ s.hobbies, h.id = id) :
    ((runCasc (HobbyService.deleteWithRelated id) Option.none now s).1 = Except.ok () ∧
     (runCasc (HobbyService.deleteWithRelated id) Option.none now s).2.2.filter isDeleteEv
        = (s.goals.filter (fun g => g.hobbyId = id)).map
            (fun g => TraceEv.delWhere TableName.progress "goalId" g.id)
          ++ [TraceEv.delWhere TableName.goals "hobbyId" id,
              TraceEv.delKey TableName.hobbies id] ∧
     (runCasc (HobbyService.deleteWithRelated id) Option.none now s).2.2.filter isDeletionPubEv
        = (s.goals.filter (fun g => g.hobbyId = id)).map
            (fun g => TraceEv.pub "progress:deleted" (EvData.withGoalId g.id))
          ++ [TraceEv.pub "goal:deleted" (EvData.withHobbyId id),
              TraceEv.pub "hobby:deleted" (EvData.str id)] ∧
     (runCasc (HobbyService.deleteWithRelated id) Option.none now s).2.2.filter isSyncWriteEv
        = (s.goals.filter (fun g => g.hobbyId = id)).flatMap
            (fun g => (s.progress.filter (fun p => p.goalId = g.id)).map
              (fun p => TraceEv.syncWrite TableName.progress p.id (pendingDeleteSF now)))
          ++ (s.goals.filter (fun g => g.hobbyId = id)).map
              (fun g => TraceEv.syncWrite TableName.goals g.id (pendingDeleteSF now))
          ++ [TraceEv.syncWrite TableName.hobbies id (pendingDeleteSF now)]) ∧
    ((runCasc (CategoryService.deleteWithRelated id) Option.none now s).1 = Except.ok () ∧
     (runCasc (CategoryService.deleteWithRelated id) Option.none now s).2.2.filter isDeleteEv
        = (s.hobbies.filter (fun h => h.categoryId = id)).flatMap
            (fun h => (s.goals.filter (fun g => g.hobbyId = h.id)).map
              (fun g => TraceEv.delWhere TableName.progress "goalId" g.id)
              ++ [TraceEv.delWhere TableName.goals "hobbyId" h.id])
          ++ [TraceEv.delWhere TableName.hobbies "categoryId" id,
              TraceEv.delKey TableName.categories id] ∧
     (runCasc (CategoryService.deleteWithRelated id) Option.none now s).2.2.filter
        isDeletionPubEv = [] ∧
     (runCasc (CategoryService.deleteWithRelated id) Option.none now s).2.2.filter
        isSyncWriteEv = []) ∧
    ((runCasc (GoalService.deleteWithRelated id) Option.none now s).1 = Except.ok () ∧
     (runCasc (GoalService.deleteWithRelated id) Option.none now s).2.2.filter isDeleteEv
        = [TraceEv.delWhere TableName.progress "goalId" id,
           TraceEv.delKey TableName.goals id] ∧
     (runCasc (GoalService.deleteWithRelated id) Option.none now s).2.2.filter
        isDeletionPubEv = [] ∧
     (runCasc (GoalService.deleteWithRelated id) Option.none now s).2.2.filter
        isSyncWriteEv = []) := by
  obtain ⟨stH, hHbody, hHdel, hHpub, hHsync⟩ := hobby_body_run id
    { store := s, cache := GoalService.emptyCache, now := now, tick := 0,
      failAt := Option.none, trace := [] } rfl hg hp hhob
  dsimp only at hHdel hHpub hHsync
  simp only [List.filter_nil, List.nil_append] at hHdel hHpub hHsync
  have hHact : HobbyService.deleteWithRelated id
      { store := s, cache := GoalService.emptyCache, now := now, tick := 0,
        failAt := Option.none, trace := [] } = (Except.ok (), stH) := by
    simp only [HobbyService.deleteWithRelated, executeDbOperation, dbTransaction]
    rw [hHbody]
  have hHrun : runCasc (HobbyService.deleteWithRelated id) Option.none now s
      = (Except.ok (), stH.store, stH.trace) := by
    simp only [runCasc]
    rw [hHact]
  obtain ⟨stK, hKbody, hKdel, hKpub, hKsync⟩ := category_body_run id
    { store := s, cache := GoalService.emptyCache, now := now, tick := 0,
      failAt := Option.none, trace := [] } rfl hh
  dsimp only at hKdel hKpub hKsync
  simp only [List.filter_nil, List.nil_append] at hKdel hKpub hKsync
  have hKact : CategoryService.deleteWithRelated id
      { store := s, cache := GoalService.emptyCache, now := now, tick := 0,
        failAt := Option.none, trace := [] } = (Except.ok (), stK) := by
    simp only [CategoryService.deleteWithRelated, executeDbOperation, dbTransaction]
    rw [hKbody]
  have hKrun : runCasc (CategoryService.deleteWithRelated id) Option.none now s
      = (Except.ok (), stK.store, stK.trace) := by
    simp only [runCasc]
    rw [hKact]
  obtain ⟨stG, hGbody, hGdel, hGpub, hGsync⟩ := goal_body_run id
    { store := s, cache := GoalService.emptyCache, now := now, tick := 0,
      failAt := Option.none, trace := [] } rfl
  dsimp only at hGdel hGpub hGsync
  simp only [List.filter_nil, List.nil_append] at hGdel hGpub hGsync
  have hGact : GoalService.deleteWithRelated id
      { store := s, cache := GoalService.emptyCache, now := now, tick := 0,
        failAt := Option.none, trace := [] } = (Except.ok (), stG) := by
    simp only [GoalService.deleteWithRelated, executeDbOperation, dbTransaction]
    rw [hGbody]
  have hGrun : runCasc (GoalService.deleteWithRelated id) Option.none now s
      = (Except.ok (), stG.store, stG.trace) := by
    simp only [runCasc]
    rw [hGact]
  exact ⟨⟨by rw [hHrun], by rw [hHrun]; exact hHdel, by rw [hHrun]; exact hHpub,
          by rw [hHrun]; exact hHsync⟩,
         ⟨by rw [hKrun], by rw [hKrun]; exact hKdel, by rw [hKrun]; exact hKpub,
          by rw [hKrun]; exact hKsync⟩,
         ⟨by rw [hGrun], by rw [hGrun]; exact hGdel, by rw [hGrun]; exact hGpub,
          by rw [hGrun]; exact hGsync⟩⟩

/-- Witness for C5 (amended) at the concrete store c1 → h1 → g1 → p1:
all three cascades succeed, with the hypotheses checked by computation. -/
theorem C5_cascade_depthfirst_amended_witness :
    (runCasc (HobbyService.deleteWithRelated "h1") Option.none 5 store1).1 = Except.ok () ∧
    (runCasc (CategoryService.deleteWithRelated "h1") Option.none 5 store1).1 = Except.ok () ∧
    (runCasc (GoalService.deleteWithRelated "h1") Option.none 5 store1).1 = Except.ok () :=
  ⟨(C5_cascade_depthfirst_amended "h1" 5 store1 (by decide) (by decide) (by decide)
      (by decide)).1.1,
   (C5_cascade_depthfirst_amended "h1" 5 store1 (by decide) (by decide) (by decide)
      (by decide)).2.1.1,
   (C5_cascade_depthfirst_amended "h1" 5 store1 (by decide) (by decide) (by decide)
      (by decide)).2.2.1⟩
